import Mathlib

/-!
# wgengine/router (Windows): route building, ordering, de-duplication, default-route monitor

A shallow embedding of `wgengine/router/ifconfig_windows.go` and
`wgengine/router/old_winipcfg_windows.go`.

* byte slices (`net.IP`, `net.IPMask`, `[]byte`) are `List Nat`, a nil slice and an empty
  slice both being `[]` (`bytes.Compare` and `bytes.Equal` do not tell them apart);
* `uint32` values are `Nat`, with `% 2 ^ 32` written where the source can wrap;
* calls into the operating system are read from an explicit environment record, and every
  write the code performs is appended to a list of events.
-/

namespace Router

/-! ## Byte slices -/

/-- Go standard library `bytes.Compare`: lexicographic comparison of two byte slices,
`-1` if `a < b`, `0` if `a == b`, `+1` if `a > b`. -/
def bytesCompare : List Nat → List Nat → Int
  | [], [] => 0
  | [], _ :: _ => -1
  | _ :: _, [] => 1
  | a :: as, b :: bs =>
    if a < b then -1 else if b < a then 1 else bytesCompare as bs

/-- Go standard library `bytes.Equal`. -/
def bytesEqual (a b : List Nat) : Bool := decide (a = b)

/-! ## Route entries (`winipcfg.RouteData`) -/

/-- Go standard library `net.IPNet`: an address and a mask, both byte slices. -/
structure IPNet where
  IP : List Nat
  Mask : List Nat
  deriving DecidableEq, Repr

/-- The fields of `winipcfg.RouteData` that the source reads and writes. -/
structure RouteData where
  Destination : IPNet
  NextHop : List Nat
  Metric : Nat
  deriving DecidableEq, Repr

/-- Source `routeLess`: reports whether `ri` should sort before `rj`. -/
def routeLess (ri rj : RouteData) : Bool :=
  if bytesCompare ri.Destination.IP rj.Destination.IP ≠ 0 then
    bytesCompare ri.Destination.IP rj.Destination.IP == -1
  else if bytesCompare ri.Destination.Mask rj.Destination.Mask ≠ 0 then
    -- Narrower masks first
    bytesCompare ri.Destination.Mask rj.Destination.Mask == 1
  else if ri.Metric ≠ rj.Metric then
    -- Lower metrics first
    decide (ri.Metric < rj.Metric)
  else if bytesCompare ri.NextHop rj.NextHop ≠ 0 then
    -- No nexthop before non-empty nexthop.
    bytesCompare ri.NextHop rj.NextHop == -1
  else
    false

/-! ## Sorting and de-duplication (`configureInterface`, lines 322-334) -/

/-- Go standard library `sort.Slice(routes, less)`: it leaves the slice a permutation of its
elements in which no element sorts before an earlier one. It is modelled by insertion sort;
for `routeLess` every such arrangement is the same list (`sortSlice_routeLess_unique`). -/
def sortSlice {α : Type} (less : α → α → Bool) (xs : List α) : List α :=
  List.insertionSort (fun a b => less b a = false) xs

/-- The test of the de-duplication loop: `routes[i]` and `routes[i-1]` have the same
destination address bytes and the same mask bytes. -/
def sameDestination (a b : RouteData) : Bool :=
  bytesEqual a.Destination.IP b.Destination.IP &&
    bytesEqual a.Destination.Mask b.Destination.Mask

/-- The de-duplication loop from index `i ≥ 1` on, `prev` being `routes[i-1]`: an entry with
the destination and mask of its predecessor is skipped, any other is appended. -/
def dedupFrom (prev : RouteData) : List RouteData → List RouteData
  | [] => []
  | r :: rs => if sameDestination r prev then dedupFrom r rs else r :: dedupFrom r rs

/-- The de-duplication loop of `configureInterface`: `routes[0]` is always kept (`i > 0` fails). -/
def deduplicate : List RouteData → List RouteData
  | [] => []
  | r :: rs => r :: dedupFrom r rs

/-! ## Addresses and prefixes -/

/-- Modelled from the spec: the address type of the entries of `cfg.LocalAddrs` and
`cfg.Routes` is declared in another package. An address is an IPv4 address
(32 bits), an IPv6 address (128 bits), or the zero value of the type, which is in neither
family (the source tests `Is4()` and then `else if Is6()`). The number is read modulo the
width of its family. -/
inductive IP where
  | zero
  | v4 (addr : Nat)
  | v6 (addr : Nat)
  deriving DecidableEq, Repr

/-- The method `Is4` of an address. -/
def IP.Is4 : IP → Bool
  | .v4 _ => true
  | _ => false

/-- The method `Is6` of an address. -/
def IP.Is6 : IP → Bool
  | .v6 _ => true
  | _ => false

/-- The `len` low-order bytes of `x`, most significant first. -/
def beBytes : Nat → Nat → List Nat
  | 0, _ => []
  | n + 1, x => (x / 256 ^ n % 256) :: beBytes n x

/-- The `net.IP` form of an address: 4 bytes for IPv4, 16 for IPv6, nil for the zero value. -/
def IP.stdIP : IP → List Nat
  | .zero => []
  | .v4 a => beBytes 4 a
  | .v6 a => beBytes 16 a

/-- Modelled from the spec: the (IP, prefix-length) pair type of the entries of
`cfg.LocalAddrs` and `cfg.Routes`, declared in another package; the source
reads its fields `IP` and `Bits` and calls its method `IPNet`. -/
structure IPPrefix where
  IP : IP
  Bits : Nat
  deriving DecidableEq, Repr

/-- The loop of Go standard library `net.CIDRMask`: `l` mask bytes with the first `n` bits
set. -/
def cidrMaskBytes : Nat → Nat → List Nat
  | 0, _ => []
  | l + 1, n =>
    if n ≥ 8 then 0xff :: cidrMaskBytes l (n - 8)
    else (0xff ^^^ (0xff >>> n)) :: cidrMaskBytes l 0

/-- Go standard library `net.CIDRMask(ones, bits)`: nil unless `bits` is 32 or 128 and
`ones ≤ bits`. -/
def CIDRMask (ones bits : Nat) : List Nat :=
  if bits ≠ 32 ∧ bits ≠ 128 then []
  else if ones > bits then []
  else cidrMaskBytes (bits / 8) ones

/-- The method `IPNet` of a prefix: the address bytes with the mask
`net.CIDRMask(Bits, 32)` for IPv4 and `net.CIDRMask(Bits, 128)` otherwise. -/
def IPPrefix.IPNet (p : IPPrefix) : IPNet :=
  { IP := p.IP.stdIP, Mask := CIDRMask p.Bits (if p.IP.Is4 then 32 else 128) }

/-- Go standard library `v4InV6Prefix`. -/
def v4InV6Prefix : List Nat := [0, 0, 0, 0, 0, 0, 0, 0, 0, 0, 0xff, 0xff]

/-- Go standard library `allFF`. -/
def allFF (b : List Nat) : Bool := b.all (fun c => c == 0xff)

/-- Go standard library `net.IP.Mask`: the bytewise AND of address and mask, nil when their
lengths differ (after the two IPv4-in-IPv6 adjustments). -/
def ipMask (ip mask : List Nat) : List Nat :=
  let mask := if mask.length = 16 ∧ ip.length = 4 ∧ allFF (mask.take 12) then mask.drop 12
    else mask
  let ip := if mask.length = 4 ∧ ip.length = 16 ∧ ip.take 12 = v4InV6Prefix then ip.drop 12
    else ip
  if ip.length ≠ mask.length then [] else List.zipWith (fun a b => a &&& b) ip mask

/-- Modelled from the spec: the fields of the router configuration (declared in another
file of the package) that `configureInterface` reads: the address assignments of the tunnel
and the declared routes. -/
structure Config where
  LocalAddrs : List IPPrefix
  Routes : List IPPrefix
  deriving Repr

/-! ## Gateway derivation (`configureInterface`, lines 258-271) -/

/-- The variables `firstGateway4` and `firstGateway6`, `none` for a nil pointer. -/
structure Gateways where
  firstGateway4 : Option (List Nat)
  firstGateway6 : Option (List Nat)
  deriving DecidableEq, Repr

/-- One iteration of the loop over `cfg.LocalAddrs`. -/
def gatewayStep (g : Gateways) (addr : IPPrefix) : Gateways :=
  let gateway := addr.IPNet.IP
  if addr.IP.Is4 && g.firstGateway4.isNone then { g with firstGateway4 := some gateway }
  else if addr.IP.Is6 && g.firstGateway6.isNone then { g with firstGateway6 := some gateway }
  else g

/-- The loop over `cfg.LocalAddrs`, from both gateways nil. -/
def deriveGateways (cfg : Config) : Gateways :=
  cfg.LocalAddrs.foldl gatewayStep { firstGateway4 := none, firstGateway6 := none }

/-- The slice `addresses` handed to `syncAddresses`. -/
def localAddresses (cfg : Config) : List IPNet :=
  cfg.LocalAddrs.map IPPrefix.IPNet

/-! ## Errors -/

/-- Errors of the embedded code: an error code returned by an operating-system call, and
the errors the source creates itself. -/
inductive Error where
  /-- A `windows.Errno` returned by an operating-system call. -/
  | errno (code : Nat)
  /-- The error "Due to a Windows limitation, one cannot have interface routes without an
  interface address". -/
  | noInterfaceAddress
  /-- The error "Not implemented" of the two synchronizers. -/
  | notImplemented
  deriving DecidableEq, Repr

/-- The value of `windows.ERROR_NOT_FOUND`. -/
def ERROR_NOT_FOUND : Nat := 1168

/-- Source `isMissingIPv6Err`: whether the error is `windows.ERROR_NOT_FOUND`. -/
def isMissingIPv6Err (err : Error) : Bool :=
  err == Error.errno ERROR_NOT_FOUND

/-! ## Route building (`configureInterface`, lines 273-315) -/

/-- The variables the loop over `cfg.Routes` updates. -/
structure RouteAcc where
  routes : List RouteData
  foundDefault4 : Bool
  foundDefault6 : Bool
  deriving DecidableEq, Repr

/-- The value of the local `gateway` for a declared route: the gateway of its family, nil
for a route in neither family. -/
def routeGateway (g : Gateways) (route : IPPrefix) : List Nat :=
  if route.IP.Is4 then g.firstGateway4.getD []
  else if route.IP.Is6 then g.firstGateway6.getD []
  else []

/-- The masked destination `ipn.IP.Mask(ipn.Mask)` with the mask `ipn.Mask` of a declared
route. -/
def routeDestination (route : IPPrefix) : IPNet :=
  let ipn := route.IPNet
  { IP := ipMask ipn.IP ipn.Mask, Mask := ipn.Mask }

/-- One iteration of the loop over `cfg.Routes`. -/
def routeStep (g : Gateways) (acc : RouteAcc) (route : IPPrefix) : Except Error RouteAcc :=
  if (route.IP.Is4 && g.firstGateway4.isNone) || (route.IP.Is6 && g.firstGateway6.isNone) then
    .error Error.noInterfaceAddress
  else
    let gateway := routeGateway g route
    let r : RouteData :=
      { Destination := routeDestination route, NextHop := gateway, Metric := 0 }
    if bytesCompare r.Destination.IP gateway = 0 then
      -- no need to add a route for the interface's own IP
      .ok acc
    else if route.IP.Is4 then
      .ok { routes := acc.routes ++ [{ r with NextHop := g.firstGateway4.getD [] }],
            foundDefault4 := if route.Bits = 0 then true else acc.foundDefault4,
            foundDefault6 := acc.foundDefault6 }
    else if route.IP.Is6 then
      .ok { routes := acc.routes ++ [{ r with NextHop := g.firstGateway6.getD [] }],
            foundDefault4 := acc.foundDefault4,
            foundDefault6 := if route.Bits = 0 then true else acc.foundDefault6 }
    else
      .ok { acc with routes := acc.routes ++ [r] }

/-- The loop over the declared routes; it stops at the first error. -/
def routeLoop (g : Gateways) : RouteAcc → List IPPrefix → Except Error RouteAcc
  | acc, [] => .ok acc
  | acc, route :: rest =>
    match routeStep g acc route with
    | .error e => .error e
    | .ok acc' => routeLoop g acc' rest

/-- Route building of `configureInterface`: gateway derivation, then the loop over
`cfg.Routes` from an empty slice and both flags false. -/
def buildRoutes (cfg : Config) : Except Error RouteAcc :=
  routeLoop (deriveGateways cfg)
    { routes := [], foundDefault4 := false, foundDefault6 := false } cfg.Routes

/-! ## The operating system as seen by the code -/

/-- The address families `windows.AF_INET` and `windows.AF_INET6`. -/
inductive Family where
  | AF_INET
  | AF_INET6
  deriving DecidableEq, Repr

/-- The fields of the interface record `winipcfg.MibIPInterfaceRow` that the source writes. -/
structure IPInterfaceRow where
  NLMTU : Nat
  UseAutomaticMetric : Bool
  Metric : Nat
  DadTransmits : Nat
  RouterDiscoveryBehavior : Nat
  deriving DecidableEq, Repr

/-- The value of `winipcfg.RouterDiscoveryDisabled`. -/
def RouterDiscoveryDisabled : Nat := 0

/-- The fields of a route-table row `winipcfg.MibIPforwardRow2` that the source reads. -/
structure RouteRow where
  /-- The field `DestinationPrefix.PrefixLength`. -/
  PrefixLength : Nat
  InterfaceLUID : Nat
  InterfaceIndex : Nat
  Metric : Nat
  deriving DecidableEq, Repr

/-- What the operating system and the tunnel device answer to the calls of the source. Each
call site is reached at most once in a run, so one answer per call is fully general. -/
structure OS where
  /-- The outcome of `interfaceFromGUID(&guid)`. -/
  interfaceFromGUID : Except Error Unit
  /-- The call `winipcfg.GetIPForwardTable2(family)`. -/
  GetIPForwardTable2 : Family → Except Error (List RouteRow)
  /-- The call `luid.Interface()`, reduced to the field `MTU` of the row it returns. -/
  Interface : Nat → Except Error Nat
  /-- The call `IPInterface(family)` on the LUID of the tunnel. -/
  IPInterface : Family → Except Error IPInterfaceRow
  /-- The outcome of `Set()` on the interface record of a family. -/
  Set : Family → IPInterfaceRow → Except Error Unit
  /-- The call `tun.MTU()`. -/
  tunMTU : Except Error Int

/-- The calls with an effect that the code makes, in the order it makes them. -/
inductive Event where
  | syncAddresses (want : List IPNet)
  | syncRoutes (want : List RouteData)
  | setIPInterface (family : Family) (row : IPInterfaceRow)
  | forceMTU (mtu : Int)
  | bindSocketToInterface (family : Family) (index : Nat)
  deriving DecidableEq, Repr

/-! ## The synchronizers (`old_winipcfg_windows.go`) -/

/-- Source `syncAddresses`: its body is `return errors.New("Not implemented")`. -/
def syncAddresses (_want : List IPNet) : Except Error Unit :=
  .error Error.notImplemented

/-- Source `syncRoutes`: its body is `return errors.New("Not implemented")`. -/
def syncRoutes (_want : List RouteData) : Except Error Unit :=
  .error Error.notImplemented

/-! ## Bring-up (`configureInterface`) -/

/-- The statement `if err != nil && errAcc == nil { errAcc = err }`. -/
def accumulate (errAcc : Option Error) (res : Except Error Unit) : Option Error :=
  match res, errAcc with
  | .error e, none => some e
  | _, acc => acc

/-- The IPv6 part of `configureInterface` (lines 363-384), from the accumulated error and
the events so far. -/
def configureV6 (os : OS) (mtu : Nat) (foundDefault6 : Bool) (errAcc : Option Error)
    (events : List Event) : Option Error × List Event :=
  match os.IPInterface Family.AF_INET6 with
  | .error err =>
    if !isMissingIPv6Err err then (some err, events) else (errAcc, events)
  | .ok ipif =>
    let ipif := if foundDefault6 then { ipif with UseAutomaticMetric := false, Metric := 0 }
      else ipif
    let ipif := if mtu > 0 then { ipif with NLMTU := mtu % 2 ^ 32 } else ipif
    let ipif := { ipif with DadTransmits := 0,
                            RouterDiscoveryBehavior := RouterDiscoveryDisabled }
    (accumulate errAcc (os.Set Family.AF_INET6 ipif),
      events ++ [Event.setIPInterface Family.AF_INET6 ipif])

/-- The IPv4 part of `configureInterface` (lines 344-361), followed by the IPv6 part. -/
def configureV4 (os : OS) (mtu : Nat) (acc : RouteAcc) (errAcc : Option Error)
    (events : List Event) : Option Error × List Event :=
  match os.IPInterface Family.AF_INET with
  | .error err => (some err, events)
  | .ok ipif =>
    let ipif := if acc.foundDefault4 then { ipif with UseAutomaticMetric := false, Metric := 0 }
      else ipif
    let ipif := if mtu > 0 then { ipif with NLMTU := mtu % 2 ^ 32 } else ipif
    let events := if mtu > 0 then events ++ [Event.forceMTU ipif.NLMTU] else events
    configureV6 os mtu acc.foundDefault6 (accumulate errAcc (os.Set Family.AF_INET ipif))
      (events ++ [Event.setIPInterface Family.AF_INET ipif])

/-- Source `configureInterface`, with the two synchronizers as parameters: the error it
returns (`none` for nil) and the calls it made. The goroutine that classifies the
interface for the firewall is not part of the model. -/
def configureInterfaceWith (syncA : List IPNet → Except Error Unit)
    (syncR : List RouteData → Except Error Unit) (os : OS) (cfg : Config) :
    Option Error × List Event :=
  let mtu : Nat := 0
  match os.interfaceFromGUID with
  | .error err => (some err, [])
  | .ok _ =>
    match buildRoutes cfg with
    | .error err => (some err, [])
    | .ok acc =>
      match syncA (localAddresses cfg) with
      | .error err => (some err, [Event.syncAddresses (localAddresses cfg)])
      | .ok _ =>
        let deduplicatedRoutes := deduplicate (sortSlice routeLess acc.routes)
        configureV4 os mtu acc (accumulate none (syncR deduplicatedRoutes))
          [Event.syncAddresses (localAddresses cfg), Event.syncRoutes deduplicatedRoutes]

/-- Source `configureInterface`: bring-up with the synchronizers of
`old_winipcfg_windows.go`. -/
def configureInterface (os : OS) (cfg : Config) : Option Error × List Event :=
  configureInterfaceWith syncAddresses syncRoutes os cfg

/-! ## The default-route monitor (`bindSocketRoute`, `monitorDefaultRoutes`) -/

/-- The variables `lowestMetric`, `index` and `luid` of `bindSocketRoute`. -/
structure Selection where
  lowestMetric : Nat
  index : Nat
  luid : Nat
  deriving DecidableEq, Repr

/-- One iteration of the loop of `bindSocketRoute` over the route table. -/
def selectStep (ourLuid : Nat) (s : Selection) (route : RouteRow) : Selection :=
  if route.PrefixLength ≠ 0 ∨ route.InterfaceLUID = ourLuid then s
  else if route.Metric < s.lowestMetric then
    { lowestMetric := route.Metric, index := route.InterfaceIndex, luid := route.InterfaceLUID }
  else s

/-- The loop of `bindSocketRoute`, from `lowestMetric = ^uint32(0)`, `index = 0`,
`luid = 0`. -/
def selectRoute (ourLuid : Nat) (routes : List RouteRow) : Selection :=
  routes.foldl (selectStep ourLuid) { lowestMetric := 2 ^ 32 - 1, index := 0, luid := 0 }

/-- Source `bindSocketRoute`: the error returned, the new value of `*lastLuid` and the calls
made. The branch that binds the socket is under `if false`. -/
def bindSocketRoute (os : OS) (family : Family) (ourLuid : Nat) (lastLuid : Nat) :
    Option Error × Nat × List Event :=
  match os.GetIPForwardTable2 family with
  | .error err => (some err, lastLuid, [])
  | .ok routes =>
    let sel := selectRoute ourLuid routes
    if sel.luid = lastLuid then (none, lastLuid, [])
    else if false then (none, sel.luid, [Event.bindSocketToInterface family sel.index])
    else (none, sel.luid, [])

/-- The variables `lastLuid4`, `lastLuid6` and `lastMtu` that the closure `doIt` keeps
between calls. -/
structure MonitorState where
  lastLuid4 : Nat
  lastLuid6 : Nat
  lastMtu : Nat
  deriving DecidableEq, Repr

/-- The derivation of `mtu` in `doIt` (lines 100-118). -/
def deriveMtu (os : OS) (st : MonitorState) : Except Error Nat :=
  let mtu : Nat := 0
  let step4 : Except Error Nat :=
    if st.lastLuid4 ≠ 0 then
      match os.Interface st.lastLuid4 with
      | .error err => .error err
      | .ok ifaceMTU => .ok (if ifaceMTU > 0 then ifaceMTU else mtu)
    else .ok mtu
  match step4 with
  | .error err => .error err
  | .ok mtu =>
    if st.lastLuid6 ≠ 0 then
      match os.Interface st.lastLuid6 with
      | .error err => .error err
      | .ok ifaceMTU => .ok (if ifaceMTU > 0 ∧ ifaceMTU < mtu then ifaceMTU else mtu)
    else .ok mtu

/-- The value `mtu - 80` of type `uint32`. -/
def mtuMinus80 (mtu : Nat) : Nat := (mtu + 2 ^ 32 - 80) % 2 ^ 32

/-- The value written to `iface.NLMTU` of the IPv4 record (lines 124-134). -/
def nlmtu4 (os : OS) (mtu : Nat) : Nat :=
  let nlmtu := mtuMinus80 mtu
  let nlmtu :=
    match os.tunMTU with
    | .ok min => if min < (nlmtu : Int) then (min % 2 ^ 32).toNat else nlmtu
    | .error _ => nlmtu
  if nlmtu < 576 then 576 else nlmtu

/-- The value written to `iface.NLMTU` of the IPv6 record (lines 146-149). -/
def nlmtu6 (mtu : Nat) : Nat :=
  let nlmtu := mtuMinus80 mtu
  if nlmtu < 1280 then 1280 else nlmtu

/-- The application of `mtu` in `doIt` (lines 119-157). -/
def applyMtu (os : OS) (st : MonitorState) (mtu : Nat) :
    Option Error × MonitorState × List Event :=
  if mtu > 0 ∧ (st.lastMtu = 0 ∨ st.lastMtu ≠ mtu) then
    match os.IPInterface Family.AF_INET with
    | .error err => (some err, st, [])
    | .ok iface =>
      let iface := { iface with NLMTU := nlmtu4 os mtu }
      match os.Set Family.AF_INET iface with
      | .error err => (some err, st, [Event.setIPInterface Family.AF_INET iface])
      | .ok _ =>
        let events := [Event.setIPInterface Family.AF_INET iface, Event.forceMTU iface.NLMTU]
        match os.IPInterface Family.AF_INET6 with
        | .error err =>
          if !isMissingIPv6Err err then (some err, st, events)
          else (none, { st with lastMtu := mtu }, events)
        | .ok iface6 =>
          let iface6 := { iface6 with NLMTU := nlmtu6 mtu }
          match os.Set Family.AF_INET6 iface6 with
          | .error err =>
            (some err, st, events ++ [Event.setIPInterface Family.AF_INET6 iface6])
          | .ok _ =>
            (none, { st with lastMtu := mtu },
              events ++ [Event.setIPInterface Family.AF_INET6 iface6])
  else (none, st, [])

/-- The closure `doIt` of `monitorDefaultRoutes`: the error returned, the state it leaves
and the calls made. -/
def doIt (os : OS) (autoMTU : Bool) (ourLuid : Nat) (st : MonitorState) :
    Option Error × MonitorState × List Event :=
  match bindSocketRoute os Family.AF_INET ourLuid st.lastLuid4 with
  | (some err, luid4, ev4) => (some err, { st with lastLuid4 := luid4 }, ev4)
  | (none, luid4, ev4) =>
    let st := { st with lastLuid4 := luid4 }
    match bindSocketRoute os Family.AF_INET6 ourLuid st.lastLuid6 with
    | (some err, luid6, ev6) => (some err, { st with lastLuid6 := luid6 }, ev4 ++ ev6)
    | (none, luid6, ev6) =>
      let st := { st with lastLuid6 := luid6 }
      if !autoMTU then (none, st, ev4 ++ ev6)
      else
        match deriveMtu os st with
        | .error err => (some err, st, ev4 ++ ev6)
        | .ok mtu =>
          match applyMtu os st mtu with
          | (err, st, ev) => (err, st, ev4 ++ ev6 ++ ev)

/-! ## Notions used in the statements -/

/-- The slice `a` is before `b` for `bytes.Compare`. -/
def bytesLt (a b : List Nat) : Prop := bytesCompare a b = -1

/-- The slice `a` is after `b` for `bytes.Compare`. -/
def bytesGt (a b : List Nat) : Prop := bytesCompare a b = 1

/-- Lexicographic combination of a relation on the first component and one on the second. -/
def lex2 {α β : Type} (r : α → α → Prop) (s : β → β → Prop) (x y : α × β) : Prop :=
  r x.1 y.1 ∨ (x.1 = y.1 ∧ s x.2 y.2)

/-- The four fields `routeLess` compares, in the order it compares them. -/
def routeKey (r : RouteData) : List Nat × List Nat × Nat × List Nat :=
  (r.Destination.IP, r.Destination.Mask, r.Metric, r.NextHop)

/-- The order that `routeLess` decides, written as a lexicographic combination. -/
def routeLt (a b : RouteData) : Prop :=
  lex2 bytesLt (lex2 bytesGt (lex2 (fun m n : Nat => m < n) bytesLt)) (routeKey a) (routeKey b)

/-- The entry `a` may stand before `b` in a slice sorted with `routeLess`. -/
def routeLe (a b : RouteData) : Prop := routeLess b a = false

instance : DecidableRel routeLe :=
  fun a b => inferInstanceAs (Decidable (routeLess b a = false))

/-- The order `routeLess` puts on (destination, mask) pairs alone. -/
def destLt (a b : RouteData) : Prop :=
  lex2 bytesLt bytesGt (a.Destination.IP, a.Destination.Mask)
    (b.Destination.IP, b.Destination.Mask)

/-- The test at the head of the loop over `cfg.Routes`: the declared route is in a family
whose gateway pointer is nil. -/
def rejected (g : Gateways) (route : IPPrefix) : Bool :=
  (route.IP.Is4 && g.firstGateway4.isNone) || (route.IP.Is6 && g.firstGateway6.isNone)

/-- The entry one iteration of the loop over `cfg.Routes` appends for a declared route that
is not rejected, `none` when the iteration ends in `continue`. -/
def emitted (g : Gateways) (route : IPPrefix) : Option RouteData :=
  if bytesCompare (routeDestination route).IP (routeGateway g route) = 0 then none
  else some { Destination := routeDestination route, NextHop := routeGateway g route,
              Metric := 0 }

/-- The declared route is in a family (IPv4 or IPv6) in which `cfg.LocalAddrs` has no
address. -/
def lacksAddress (cfg : Config) (route : IPPrefix) : Prop :=
  (route.IP.Is4 = true ∧ ∀ a ∈ cfg.LocalAddrs, a.IP.Is4 = false) ∨
  (route.IP.Is6 = true ∧ ∀ a ∈ cfg.LocalAddrs, a.IP.Is6 = false)

/-- Whether two addresses are in the same family, IPv4 or IPv6. -/
def sameFamily (a b : IP) : Bool :=
  (a.Is4 && b.Is4) || (a.Is6 && b.Is6)

/-- The number of address bits of the family of an address. -/
def IP.BitLen : IP → Nat
  | .zero => 0
  | .v4 _ => 32
  | .v6 _ => 128

/-- Bit `i` of a byte slice, bit 0 being the most significant bit of the first byte. -/
def bitAt (bs : List Nat) (i : Nat) : Bool :=
  (bs.getD (i / 8) 0).testBit (7 - i % 8)

/-- The first error among the outcomes of a list of steps, `none` when all succeeded. -/
def firstError : List (Except Error Unit) → Option Error
  | [] => none
  | .error err :: _ => some err
  | .ok _ :: rest => firstError rest

/-- The record `configureInterface` writes for IPv4 from the record `ipif` it read. -/
def row4 (acc : RouteAcc) (ipif : IPInterfaceRow) : IPInterfaceRow :=
  if acc.foundDefault4 then { ipif with UseAutomaticMetric := false, Metric := 0 } else ipif

/-- The record `configureInterface` writes for IPv6 from the record `ipif` it read. -/
def row6 (acc : RouteAcc) (ipif : IPInterfaceRow) : IPInterfaceRow :=
  { (if acc.foundDefault6 then { ipif with UseAutomaticMetric := false, Metric := 0 }
      else ipif) with
    DadTransmits := 0, RouterDiscoveryBehavior := RouterDiscoveryDisabled }

/-- The default routes outside the tunnel, in table order: what the loop of
`bindSocketRoute` does not skip. -/
def candidates (ourLuid : Nat) (routes : List RouteRow) : List RouteRow :=
  routes.filter (fun r => decide (r.PrefixLength = 0 ∧ r.InterfaceLUID ≠ ourLuid))

/-- The body of the loop of `bindSocketRoute` for a route it does not skip. -/
def pick (s : Selection) (route : RouteRow) : Selection :=
  if route.Metric < s.lowestMetric then
    { lowestMetric := route.Metric, index := route.InterfaceIndex, luid := route.InterfaceLUID }
  else s

/-! ## Example inputs -/

/-- The IPv4 address `a.b.c.d`. -/
def ip4 (a b c d : Nat) : IP := IP.v4 (((a * 256 + b) * 256 + c) * 256 + d)

/-- An operating system on which every call succeeds: no default route, interfaces of MTU
1500, a tunnel device of MTU 1500. -/
def exampleOS : OS :=
  { interfaceFromGUID := .ok ()
    GetIPForwardTable2 := fun _ => .ok []
    Interface := fun _ => .ok 1500
    IPInterface := fun _ =>
      .ok { NLMTU := 1500, UseAutomaticMetric := true, Metric := 10, DadTransmits := 1,
            RouterDiscoveryBehavior := 1 }
    Set := fun _ _ => .ok ()
    tunMTU := .ok 1500 }

/-- The tunnel has the address 10.0.0.5/24; the subnet 10.0.0.0/24 is declared as a route. -/
def subnetRouteConfig : Config :=
  { LocalAddrs := [⟨ip4 10 0 0 5, 24⟩], Routes := [⟨ip4 10 0 0 0, 24⟩] }

/-- The tunnel has the addresses 10.0.0.5/24 and 10.0.0.9/24; the declared routes are the
address 10.0.0.5/32 itself, the subnet 10.0.0.0/24 (written 10.0.0.77/24) and the default
route. -/
def ownAddressConfig : Config :=
  { LocalAddrs := [⟨ip4 10 0 0 5, 24⟩, ⟨ip4 10 0 0 9, 24⟩],
    Routes := [⟨ip4 10 0 0 5, 32⟩, ⟨ip4 10 0 0 77, 24⟩, ⟨ip4 0 0 0 0, 0⟩] }

/-- The tunnel has an IPv4 address only; an IPv6 default route is declared. -/
def noAddress6Config : Config :=
  { LocalAddrs := [⟨ip4 10 0 0 5, 24⟩], Routes := [⟨ip4 10 1 0 0, 16⟩, ⟨IP.v6 0, 0⟩] }

/-- The tunnel has the address 10.0.0.5/24; the declared route 10.1.2.3/33 has a prefix
length beyond the 32 bits of an IPv4 address. -/
def overlongPrefixConfig : Config :=
  { LocalAddrs := [⟨ip4 10 0 0 5, 24⟩], Routes := [⟨ip4 10 1 2 3, 33⟩] }

/-- An operating system on which both interface records are read but setting the IPv4
record fails with error code 87 and setting the IPv6 record with error code 5. -/
def setFailsOS : OS :=
  { exampleOS with
    Set := fun family _ =>
      match family with
      | Family.AF_INET => .error (Error.errno 87)
      | Family.AF_INET6 => .error (Error.errno 5) }

/-- The route table holds one default route outside the tunnel, on the interface with LUID 5
and index 3, with the largest metric a `uint32` can hold. -/
def maxMetricOS : OS :=
  { exampleOS with
    GetIPForwardTable2 := fun _ =>
      .ok [{ PrefixLength := 0, InterfaceLUID := 5, InterfaceIndex := 3, Metric := 4294967295 }] }

/-- There is no IPv4 default route; the IPv6 default route is on the interface with LUID 7,
whose MTU is 1400. -/
def ipv6OnlyOS : OS :=
  { exampleOS with
    GetIPForwardTable2 := fun family =>
      match family with
      | Family.AF_INET => .ok []
      | Family.AF_INET6 =>
        .ok [{ PrefixLength := 0, InterfaceLUID := 7, InterfaceIndex := 4, Metric := 25 }]
    Interface := fun _ => .ok 1400 }

/-- The IPv4 default route is on the interface with LUID 5 and MTU 1500, the IPv6 default
route on the interface with LUID 7 and MTU 1400. -/
def dualStackOS : OS :=
  { exampleOS with
    GetIPForwardTable2 := fun family =>
      match family with
      | Family.AF_INET =>
        .ok [{ PrefixLength := 0, InterfaceLUID := 5, InterfaceIndex := 3, Metric := 25 }]
      | Family.AF_INET6 =>
        .ok [{ PrefixLength := 0, InterfaceLUID := 7, InterfaceIndex := 4, Metric := 25 }]
    Interface := fun luid => if luid = 5 then .ok 1500 else .ok 1400 }

/-- The IPv4 default route is on the interface with LUID 5, whose MTU is `mtu`; there is no
IPv6 default route. -/
def ipv4OS (mtu : Nat) : OS :=
  { exampleOS with
    GetIPForwardTable2 := fun family =>
      match family with
      | Family.AF_INET =>
        .ok [{ PrefixLength := 0, InterfaceLUID := 5, InterfaceIndex := 3, Metric := 25 }]
      | Family.AF_INET6 => .ok []
    Interface := fun _ => .ok mtu }

/-! ## Facts about `bytesCompare` -/

theorem bytesCompare_self (a : List Nat) : bytesCompare a a = 0 := by
  induction a with
  | nil => rfl
  | cons x xs ih => simp [bytesCompare, ih]

theorem bytesCompare_eq_zero {a b : List Nat} : bytesCompare a b = 0 ↔ a = b := by
  constructor
  · intro h
    induction a generalizing b with
    | nil =>
      cases b with
      | nil => rfl
      | cons y ys => simp [bytesCompare] at h
    | cons x xs ih =>
      cases b with
      | nil => simp [bytesCompare] at h
      | cons y ys =>
        simp only [bytesCompare] at h
        split_ifs at h with h1 h2
        · omega
        · have hxy : x = y := by omega
          rw [hxy, ih h]
  · rintro rfl
    exact bytesCompare_self a

theorem bytesCompare_range (a b : List Nat) :
    bytesCompare a b = -1 ∨ bytesCompare a b = 0 ∨ bytesCompare a b = 1 := by
  induction a generalizing b with
  | nil => cases b <;> simp [bytesCompare]
  | cons x xs ih =>
    cases b with
    | nil => simp [bytesCompare]
    | cons y ys =>
      simp only [bytesCompare]
      split_ifs
      · simp
      · simp
      · exact ih ys

theorem bytesCompare_swap (a b : List Nat) : bytesCompare b a = - bytesCompare a b := by
  induction a generalizing b with
  | nil => cases b <;> simp [bytesCompare]
  | cons x xs ih =>
    cases b with
    | nil => simp [bytesCompare]
    | cons y ys =>
      simp only [bytesCompare]
      split_ifs <;> first | omega | rfl | exact ih ys

theorem bytesCompare_lt_trans {a b c : List Nat}
    (h1 : bytesCompare a b = -1) (h2 : bytesCompare b c = -1) : bytesCompare a c = -1 := by
  induction a generalizing b c with
  | nil =>
    cases c with
    | nil => cases b <;> simp [bytesCompare] at h1 h2
    | cons z zs => rfl
  | cons x xs ih =>
    cases b with
    | nil => simp [bytesCompare] at h1
    | cons y ys =>
      cases c with
      | nil => simp [bytesCompare] at h2
      | cons z zs =>
        simp only [bytesCompare] at h1 h2 ⊢
        split_ifs at h1 h2 ⊢ <;> first | omega | rfl | exact ih h1 h2

theorem bytesCompare_nil_le (b : List Nat) : bytesCompare [] b ≠ 1 := by
  cases b <;> simp [bytesCompare]

/-! ## `routeLess` is a strict total order -/

theorem bytesLt_irrefl (a : List Nat) : ¬ bytesLt a a := by
  simp [bytesLt, bytesCompare_self]

theorem bytesLt_trans {a b c : List Nat} (h1 : bytesLt a b) (h2 : bytesLt b c) : bytesLt a c :=
  bytesCompare_lt_trans h1 h2

theorem bytesGt_iff (a b : List Nat) : bytesGt a b ↔ bytesLt b a := by
  unfold bytesGt bytesLt
  rw [bytesCompare_swap a b]
  omega

theorem bytesLt_trichotomy (a b : List Nat) : bytesLt a b ∨ a = b ∨ bytesLt b a := by
  rcases bytesCompare_range a b with h | h | h
  · exact Or.inl h
  · exact Or.inr (Or.inl (bytesCompare_eq_zero.mp h))
  · exact Or.inr (Or.inr ((bytesGt_iff a b).mp h))

theorem bytesGt_irrefl (a : List Nat) : ¬ bytesGt a a := by
  simp [bytesGt, bytesCompare_self]

theorem bytesGt_trans {a b c : List Nat} (h1 : bytesGt a b) (h2 : bytesGt b c) : bytesGt a c := by
  rw [bytesGt_iff] at *
  exact bytesLt_trans h2 h1

theorem bytesGt_trichotomy (a b : List Nat) : bytesGt a b ∨ a = b ∨ bytesGt b a := by
  simp only [bytesGt_iff]
  rcases bytesLt_trichotomy a b with h | h | h
  · exact Or.inr (Or.inr h)
  · exact Or.inr (Or.inl h)
  · exact Or.inl h

section Lex
variable {α β : Type} {r : α → α → Prop} {s : β → β → Prop}

theorem lex2_irrefl (hr : ∀ a, ¬ r a a) (hs : ∀ b, ¬ s b b) (x : α × β) : ¬ lex2 r s x x := by
  rintro (h | ⟨_, h⟩)
  · exact hr _ h
  · exact hs _ h

theorem lex2_trans (hr : ∀ a b c, r a b → r b c → r a c) (hs : ∀ a b c, s a b → s b c → s a c)
    (x y z : α × β) (h1 : lex2 r s x y) (h2 : lex2 r s y z) : lex2 r s x z := by
  rcases h1 with h1 | ⟨e1, h1⟩
  · rcases h2 with h2 | ⟨e2, h2⟩
    · exact Or.inl (hr _ _ _ h1 h2)
    · exact Or.inl (e2 ▸ h1)
  · rcases h2 with h2 | ⟨e2, h2⟩
    · exact Or.inl (e1 ▸ h2)
    · exact Or.inr ⟨e1.trans e2, hs _ _ _ h1 h2⟩

theorem lex2_trichotomy (hr : ∀ a b, r a b ∨ a = b ∨ r b a) (hs : ∀ a b, s a b ∨ a = b ∨ s b a)
    (x y : α × β) : lex2 r s x y ∨ x = y ∨ lex2 r s y x := by
  rcases hr x.1 y.1 with h | h | h
  · exact Or.inl (Or.inl h)
  · rcases hs x.2 y.2 with h' | h' | h'
    · exact Or.inl (Or.inr ⟨h, h'⟩)
    · exact Or.inr (Or.inl (Prod.ext h h'))
    · exact Or.inr (Or.inr (Or.inr ⟨h.symm, h'⟩))
  · exact Or.inr (Or.inr (Or.inl h))

end Lex

theorem routeKey_injective {a b : RouteData} (h : routeKey a = routeKey b) : a = b := by
  rcases a with ⟨⟨ai, am⟩, an, ac⟩
  rcases b with ⟨⟨bi, bm⟩, bn, bc⟩
  simp only [routeKey, Prod.mk.injEq] at h
  obtain ⟨h1, h2, h3, h4⟩ := h
  subst h1 h2 h3 h4
  rfl

theorem routeLess_iff (a b : RouteData) : routeLess a b = true ↔ routeLt a b := by
  have e1 := @bytesCompare_eq_zero a.Destination.IP b.Destination.IP
  have e2 := @bytesCompare_eq_zero a.Destination.Mask b.Destination.Mask
  have r1 := bytesCompare_range a.Destination.IP b.Destination.IP
  have r2 := bytesCompare_range a.Destination.Mask b.Destination.Mask
  have r3 := bytesCompare_range a.NextHop b.NextHop
  unfold routeLess routeLt lex2 routeKey bytesLt bytesGt
  simp only [← e1, ← e2]
  generalize bytesCompare a.Destination.IP b.Destination.IP = c1 at r1 ⊢
  generalize bytesCompare a.Destination.Mask b.Destination.Mask = c2 at r2 ⊢
  generalize bytesCompare a.NextHop b.NextHop = c3 at r3 ⊢
  by_cases h3 : a.Metric = b.Metric
  · rcases r1 with rfl | rfl | rfl <;> rcases r2 with rfl | rfl | rfl <;>
      rcases r3 with rfl | rfl | rfl <;> simp [h3]
  · rcases r1 with rfl | rfl | rfl <;> rcases r2 with rfl | rfl | rfl <;>
      simp [h3]

theorem routeLt_irrefl (a : RouteData) : ¬ routeLt a a :=
  lex2_irrefl bytesLt_irrefl
    (lex2_irrefl bytesGt_irrefl (lex2_irrefl (fun n => Nat.lt_irrefl n) bytesLt_irrefl)) _

theorem routeLt_trans {a b c : RouteData} (h1 : routeLt a b) (h2 : routeLt b c) : routeLt a c :=
  lex2_trans (fun x y z => @bytesLt_trans x y z)
    (lex2_trans (fun x y z => @bytesGt_trans x y z)
      (lex2_trans (fun (x y z : Nat) (h : x < y) (h' : y < z) => Nat.lt_trans h h')
        (fun x y z => @bytesLt_trans x y z))) _ _ _ h1 h2

theorem routeLt_trichotomy (a b : RouteData) : routeLt a b ∨ a = b ∨ routeLt b a := by
  rcases lex2_trichotomy bytesLt_trichotomy
    (lex2_trichotomy bytesGt_trichotomy
      (lex2_trichotomy (fun m n : Nat => Nat.lt_trichotomy m n) bytesLt_trichotomy))
    (routeKey a) (routeKey b) with h | h | h
  · exact Or.inl h
  · exact Or.inr (Or.inl (routeKey_injective h))
  · exact Or.inr (Or.inr h)

theorem routeLt_asymm {a b : RouteData} (h1 : routeLt a b) : ¬ routeLt b a :=
  fun h2 => routeLt_irrefl a (routeLt_trans h1 h2)

theorem routeLe_iff (a b : RouteData) : routeLe a b ↔ ¬ routeLt b a := by
  unfold routeLe
  rw [← routeLess_iff]
  simp

theorem routeLe_iff_lt_or_eq (a b : RouteData) : routeLe a b ↔ routeLt a b ∨ a = b := by
  rw [routeLe_iff]
  constructor
  · intro h
    rcases routeLt_trichotomy a b with h' | h' | h'
    · exact Or.inl h'
    · exact Or.inr h'
    · exact absurd h' h
  · rintro (h | rfl)
    · exact routeLt_asymm h
    · exact routeLt_irrefl a

theorem routeLe_total (a b : RouteData) : routeLe a b ∨ routeLe b a := by
  rw [routeLe_iff_lt_or_eq, routeLe_iff_lt_or_eq]
  rcases routeLt_trichotomy a b with h | h | h
  · exact Or.inl (Or.inl h)
  · exact Or.inl (Or.inr h)
  · exact Or.inr (Or.inl h)

theorem routeLe_trans (a b c : RouteData) (h1 : routeLe a b) (h2 : routeLe b c) :
    routeLe a c := by
  rw [routeLe_iff_lt_or_eq] at *
  rcases h1 with h1 | rfl
  · rcases h2 with h2 | rfl
    · exact Or.inl (routeLt_trans h1 h2)
    · exact Or.inl h1
  · exact h2

theorem routeLe_antisymm (a b : RouteData) (h1 : routeLe a b) (h2 : routeLe b a) : a = b := by
  rw [routeLe_iff_lt_or_eq] at h1
  rw [routeLe_iff] at h2
  rcases h1 with h1 | h1
  · exact absurd h1 h2
  · exact h1

theorem routeLe_refl (a : RouteData) : routeLe a a :=
  (routeLe_iff_lt_or_eq a a).mpr (Or.inr rfl)

theorem sortSlice_routeLess_eq (routes : List RouteData) :
    sortSlice routeLess routes = List.insertionSort routeLe routes := rfl

theorem sortSlice_routeLess_perm (routes : List RouteData) :
    (sortSlice routeLess routes).Perm routes := by
  rw [sortSlice_routeLess_eq]
  exact List.perm_insertionSort routeLe routes

theorem sortSlice_routeLess_sorted (routes : List RouteData) :
    (sortSlice routeLess routes).Sorted routeLe := by
  haveI : IsTotal RouteData routeLe := ⟨routeLe_total⟩
  haveI : IsTrans RouteData routeLe := ⟨routeLe_trans⟩
  rw [sortSlice_routeLess_eq]
  exact List.sorted_insertionSort routeLe routes

/-- Any arrangement of the slice that `sort.Slice` may leave (a permutation in which no entry
sorts before an earlier one) is the list the model computes. -/
theorem sortSlice_routeLess_unique (routes s : List RouteData) (hp : s.Perm routes)
    (hs : s.Sorted routeLe) : s = sortSlice routeLess routes :=
  haveI : IsAntisymm RouteData routeLe := ⟨routeLe_antisymm⟩
  List.eq_of_perm_of_sorted (hp.trans (sortSlice_routeLess_perm routes).symm) hs
    (sortSlice_routeLess_sorted routes)

/-- C2. `routeLess` is a strict total order on route entries compared by destination bytes,
mask bytes, metric and next-hop bytes: it is irreflexive, asymmetric and transitive, and two
entries that differ in one of the four fields are ordered one way or the other. -/
theorem routeLess_strict_total_order :
    (∀ a : RouteData, routeLess a a = false) ∧
    (∀ a b : RouteData, routeLess a b = true → routeLess b a = false) ∧
    (∀ a b c : RouteData, routeLess a b = true → routeLess b c = true → routeLess a c = true) ∧
    (∀ a b : RouteData,
      (a.Destination.IP ≠ b.Destination.IP ∨ a.Destination.Mask ≠ b.Destination.Mask ∨
        a.Metric ≠ b.Metric ∨ a.NextHop ≠ b.NextHop) →
      routeLess a b = true ∨ routeLess b a = true) := by
  refine ⟨?_, ?_, ?_, ?_⟩
  · intro a
    have h := routeLt_irrefl a
    rw [← routeLess_iff] at h
    simpa using h
  · intro a b h
    have h' := routeLt_asymm ((routeLess_iff a b).mp h)
    rw [← routeLess_iff] at h'
    simpa using h'
  · intro a b c h1 h2
    exact (routeLess_iff a c).mpr (routeLt_trans ((routeLess_iff a b).mp h1)
      ((routeLess_iff b c).mp h2))
  · intro a b hne
    rcases routeLt_trichotomy a b with h | h | h
    · exact Or.inl ((routeLess_iff a b).mpr h)
    · subst h
      simp at hne
    · exact Or.inr ((routeLess_iff b a).mpr h)

/-- Witness for C2 on two entries that differ in the metric only. -/
theorem routeLess_strict_total_order_witness :
    routeLess ⟨⟨[10, 0, 0, 0], [255, 255, 255, 0]⟩, [], 1⟩
        ⟨⟨[10, 0, 0, 0], [255, 255, 255, 0]⟩, [], 5⟩ = true ∨
      routeLess ⟨⟨[10, 0, 0, 0], [255, 255, 255, 0]⟩, [], 5⟩
        ⟨⟨[10, 0, 0, 0], [255, 255, 255, 0]⟩, [], 1⟩ = true :=
  routeLess_strict_total_order.2.2.2 _ _ (Or.inr (Or.inr (Or.inl (by decide))))

/-! ## Sorting with `routeLess` and dropping repeated destinations -/

theorem destination_eq_iff (a b : RouteData) :
    a.Destination = b.Destination ↔
      a.Destination.IP = b.Destination.IP ∧ a.Destination.Mask = b.Destination.Mask := by
  rcases a with ⟨⟨ai, am⟩, an, ac⟩
  rcases b with ⟨⟨bi, bm⟩, bn, bc⟩
  simp

theorem sameDestination_iff (a b : RouteData) :
    sameDestination a b = true ↔ a.Destination = b.Destination := by
  rw [destination_eq_iff]
  simp [sameDestination, bytesEqual]

theorem destLt_congr_left {a a' b : RouteData} (h : a.Destination = a'.Destination)
    (hlt : destLt a b) : destLt a' b := by
  unfold destLt at *
  rw [← h]
  exact hlt

theorem destLt_trans {a b c : RouteData} (h1 : destLt a b) (h2 : destLt b c) : destLt a c :=
  lex2_trans (fun x y z => @bytesLt_trans x y z) (fun x y z => @bytesGt_trans x y z) _ _ _ h1 h2

theorem destLt_ne {a b : RouteData} (h : destLt a b) : a.Destination ≠ b.Destination := by
  intro e
  have h' : destLt b b := destLt_congr_left e h
  exact lex2_irrefl bytesLt_irrefl bytesGt_irrefl _ h'

theorem routeLt_iff_dest (a b : RouteData) :
    routeLt a b ↔ destLt a b ∨ (a.Destination = b.Destination ∧
      (a.Metric < b.Metric ∨ (a.Metric = b.Metric ∧ bytesLt a.NextHop b.NextHop))) := by
  rw [destination_eq_iff]
  unfold routeLt destLt lex2 routeKey
  simp only
  tauto

theorem routeLe_dest {a b : RouteData} (h : routeLe a b) :
    destLt a b ∨ (a.Destination = b.Destination ∧ a.Metric ≤ b.Metric ∧
      (a.Metric = b.Metric → bytesCompare a.NextHop b.NextHop ≠ 1)) := by
  rw [routeLe_iff_lt_or_eq] at h
  rcases h with h | rfl
  · rcases (routeLt_iff_dest a b).mp h with h | ⟨e, h | ⟨hm, hn⟩⟩
    · exact Or.inl h
    · exact Or.inr ⟨e, Nat.le_of_lt h, fun hm => absurd hm (Nat.ne_of_lt h)⟩
    · refine Or.inr ⟨e, Nat.le_of_eq hm, fun _ => ?_⟩
      unfold bytesLt at hn
      omega
  · refine Or.inr ⟨rfl, Nat.le_refl _, fun _ => ?_⟩
    rw [bytesCompare_self]
    decide

theorem dedupFrom_spec (r : RouteData) (rs : List RouteData) (h : (r :: rs).Sorted routeLe) :
    (∀ k ∈ dedupFrom r rs, k ∈ rs ∧ destLt r k) ∧
    (dedupFrom r rs).Pairwise destLt ∧
    (∀ x ∈ rs, x.Destination = r.Destination ∨
      ∃ k ∈ dedupFrom r rs, k.Destination = x.Destination ∧ routeLe k x) := by
  induction rs generalizing r with
  | nil => simp [dedupFrom]
  | cons r' rs' ih =>
    have hs' : (r' :: rs').Sorted routeLe := (List.sorted_cons.mp h).2
    have hrr' : routeLe r r' := (List.sorted_cons.mp h).1 r' (List.mem_cons_self _ _)
    have hr'x : ∀ x ∈ rs', routeLe r' x := (List.sorted_cons.mp hs').1
    obtain ⟨iha, ihb, ihc⟩ := ih r' hs'
    by_cases hsame : sameDestination r' r = true
    · have e : r'.Destination = r.Destination := (sameDestination_iff r' r).mp hsame
      simp only [dedupFrom, hsame, if_true]
      refine ⟨?_, ihb, ?_⟩
      · intro k hk
        exact ⟨List.mem_cons_of_mem _ (iha k hk).1, destLt_congr_left e (iha k hk).2⟩
      · intro x hx
        rcases List.mem_cons.mp hx with rfl | hx
        · exact Or.inl e
        · rcases ihc x hx with h1 | h1
          · exact Or.inl (h1.trans e)
          · exact Or.inr h1
    · have hne : r.Destination ≠ r'.Destination := fun e =>
        hsame ((sameDestination_iff r' r).mpr e.symm)
      have hlt : destLt r r' := by
        rcases routeLe_dest hrr' with h1 | h1
        · exact h1
        · exact absurd h1.1 hne
      simp only [dedupFrom, hsame, if_false]
      refine ⟨?_, ?_, ?_⟩
      · intro k hk
        rcases List.mem_cons.mp hk with rfl | hk
        · exact ⟨List.mem_cons_self _ _, hlt⟩
        · exact ⟨List.mem_cons_of_mem _ (iha k hk).1, destLt_trans hlt (iha k hk).2⟩
      · exact List.pairwise_cons.mpr ⟨fun k hk => (iha k hk).2, ihb⟩
      · intro x hx
        rcases List.mem_cons.mp hx with rfl | hx
        · exact Or.inr ⟨x, List.mem_cons_self _ _, rfl, routeLe_refl x⟩
        · rcases ihc x hx with h1 | ⟨k, hk, h1⟩
          · exact Or.inr ⟨r', List.mem_cons_self _ _, h1.symm, hr'x x hx⟩
          · exact Or.inr ⟨k, List.mem_cons_of_mem _ hk, h1⟩

theorem deduplicate_spec (s : List RouteData) (h : s.Sorted routeLe) :
    (∀ k ∈ deduplicate s, k ∈ s) ∧
    (deduplicate s).Pairwise destLt ∧
    (∀ x ∈ s, ∃ k ∈ deduplicate s, k.Destination = x.Destination ∧ routeLe k x) := by
  cases s with
  | nil => simp [deduplicate]
  | cons r rs =>
    obtain ⟨ha, hb, hc⟩ := dedupFrom_spec r rs h
    have hrx : ∀ x ∈ rs, routeLe r x := (List.sorted_cons.mp h).1
    simp only [deduplicate]
    refine ⟨?_, ?_, ?_⟩
    · intro k hk
      rcases List.mem_cons.mp hk with rfl | hk
      · exact List.mem_cons_self _ _
      · exact List.mem_cons_of_mem _ (ha k hk).1
    · exact List.pairwise_cons.mpr ⟨fun k hk => (ha k hk).2, hb⟩
    · intro x hx
      rcases List.mem_cons.mp hx with rfl | hx
      · exact ⟨x, List.mem_cons_self _ _, rfl, routeLe_refl x⟩
      · rcases hc x hx with h1 | ⟨k, hk, h1⟩
        · exact ⟨r, List.mem_cons_self _ _, h1.symm, hrx x hx⟩
        · exact ⟨k, List.mem_cons_of_mem _ hk, h1⟩

theorem pairwise_destLt_unique {l : List RouteData} (h : l.Pairwise destLt) {a b : RouteData}
    (ha : a ∈ l) (hb : b ∈ l) (e : a.Destination = b.Destination) : a = b := by
  by_contra hne
  have h' : l.Pairwise (fun x y => x.Destination ≠ y.Destination) :=
    h.imp (fun hlt => destLt_ne hlt)
  exact List.Pairwise.forall (fun x y hxy => Ne.symm hxy) h' ha hb hne e

/-- C1. Sorting the route entries with `routeLess` and dropping each entry that has the
destination and mask of its predecessor leaves entries of the input only, and exactly one
list entry for every (destination, mask) pair of the input: every pair of the input is the
pair of some entry kept, no two positions of the result hold the same pair, so each pair
occurs once among the pairs of the result. The entry kept for a pair has the lowest metric
among the input entries with that pair, and among those of that metric the least next hop
for `bytes.Compare`, so an entry without next hop if there is one. The two entries
10.0.0.0/24 with metrics 5 and 1 reduce to the one with metric 1, and an entry given twice
is kept once. -/
theorem deduplicate_sorted_routes :
    (∀ routes : List RouteData,
      (∀ k ∈ deduplicate (sortSlice routeLess routes), k ∈ routes) ∧
      (∀ r ∈ routes, ∃! k, k ∈ deduplicate (sortSlice routeLess routes) ∧
        k.Destination = r.Destination) ∧
      (∀ k ∈ deduplicate (sortSlice routeLess routes), ∀ r ∈ routes,
        r.Destination = k.Destination →
          k.Metric ≤ r.Metric ∧
          (r.Metric = k.Metric → bytesCompare k.NextHop r.NextHop ≠ 1) ∧
          (r.Metric = k.Metric → r.NextHop = [] → k.NextHop = [])) ∧
      ((deduplicate (sortSlice routeLess routes)).map RouteData.Destination).Nodup ∧
      (deduplicate (sortSlice routeLess routes)).Nodup ∧
      (∀ r ∈ routes,
        ((deduplicate (sortSlice routeLess routes)).map RouteData.Destination).count
          r.Destination = 1) ∧
      (deduplicate (sortSlice routeLess routes)).length =
        (routes.map RouteData.Destination).dedup.length) ∧
    deduplicate (sortSlice routeLess
        [⟨⟨[10, 0, 0, 0], [255, 255, 255, 0]⟩, [10, 0, 0, 5], 5⟩,
         ⟨⟨[10, 0, 0, 0], [255, 255, 255, 0]⟩, [10, 0, 0, 5], 1⟩]) =
      [⟨⟨[10, 0, 0, 0], [255, 255, 255, 0]⟩, [10, 0, 0, 5], 1⟩] ∧
    deduplicate (sortSlice routeLess
        [⟨⟨[10, 0, 0, 0], [255, 255, 255, 0]⟩, [10, 0, 0, 5], 0⟩,
         ⟨⟨[10, 0, 0, 0], [255, 255, 255, 0]⟩, [10, 0, 0, 5], 0⟩]) =
      [⟨⟨[10, 0, 0, 0], [255, 255, 255, 0]⟩, [10, 0, 0, 5], 0⟩] := by
  refine ⟨fun routes => ?_, by decide, by decide⟩
  have hperm := sortSlice_routeLess_perm routes
  obtain ⟨h1, h2, h3⟩ := deduplicate_spec _ (sortSlice_routeLess_sorted routes)
  have hrep : ∀ r ∈ routes, ∃ k ∈ deduplicate (sortSlice routeLess routes),
      k.Destination = r.Destination ∧ routeLe k r :=
    fun r hr => h3 r (hperm.mem_iff.mpr hr)
  have hnodup : ((deduplicate (sortSlice routeLess routes)).map RouteData.Destination).Nodup :=
    List.pairwise_map.mpr (h2.imp (fun hlt => destLt_ne hlt))
  refine ⟨fun k hk => hperm.mem_iff.mp (h1 k hk), ?_, ?_, hnodup, hnodup.of_map _, ?_, ?_⟩
  · intro r hr
    obtain ⟨k, hk, e, _⟩ := hrep r hr
    exact ⟨k, ⟨hk, e⟩, fun k' hk' => pairwise_destLt_unique h2 hk'.1 hk (hk'.2.trans e.symm)⟩
  · intro k hk r hr e
    obtain ⟨k', hk', e', hle⟩ := hrep r hr
    have hkk : k' = k := pairwise_destLt_unique h2 hk' hk (e'.trans e)
    subst hkk
    rcases routeLe_dest hle with hlt | ⟨_, hm, hn⟩
    · exact absurd e.symm (destLt_ne hlt)
    · refine ⟨hm, fun hmm => hn hmm.symm, fun hmm hnil => ?_⟩
      have h4 := hn hmm.symm
      rw [hnil] at h4
      cases hk'' : k'.NextHop with
      | nil => rfl
      | cons y ys =>
        rw [hk''] at h4
        simp [bytesCompare] at h4
  · intro r hr
    obtain ⟨k, hk, e, _⟩ := hrep r hr
    exact List.count_eq_one_of_mem hnodup (List.mem_map.mpr ⟨k, hk, e⟩)
  · rw [← List.length_map (deduplicate (sortSlice routeLess routes)) RouteData.Destination]
    apply List.Perm.length_eq
    rw [List.perm_ext_iff_of_nodup hnodup (List.nodup_dedup _)]
    intro d
    rw [List.mem_dedup, List.mem_map, List.mem_map]
    constructor
    · rintro ⟨k, hk, e⟩
      exact ⟨k, hperm.mem_iff.mp (h1 k hk), e⟩
    · rintro ⟨r, hr, e⟩
      obtain ⟨k, hk, e', _⟩ := hrep r hr
      exact ⟨k, hk, e'.trans e⟩

/-- Witness for C1: of the two entries 10.0.0.0/24 with metrics 5 and 1, the entry kept has
a metric not above that of the entry with metric 5. -/
theorem deduplicate_sorted_routes_witness :
    (1 : Nat) ≤ 5 ∧ ((5 : Nat) = 1 → bytesCompare [10, 0, 0, 5] [10, 0, 0, 5] ≠ 1) ∧
      ((5 : Nat) = 1 → [10, 0, 0, 5] = ([] : List Nat) → [10, 0, 0, 5] = ([] : List Nat)) :=
  (deduplicate_sorted_routes.1
    [⟨⟨[10, 0, 0, 0], [255, 255, 255, 0]⟩, [10, 0, 0, 5], 5⟩,
     ⟨⟨[10, 0, 0, 0], [255, 255, 255, 0]⟩, [10, 0, 0, 5], 1⟩]).2.2.1
    ⟨⟨[10, 0, 0, 0], [255, 255, 255, 0]⟩, [10, 0, 0, 5], 1⟩ (by decide)
    ⟨⟨[10, 0, 0, 0], [255, 255, 255, 0]⟩, [10, 0, 0, 5], 5⟩ (by decide) rfl

/-! ## Gateway derivation -/

theorem gatewayStep_firstGateway4 (g : Gateways) (a : IPPrefix) :
    (gatewayStep g a).firstGateway4 =
      if g.firstGateway4.isNone && a.IP.Is4 then some a.IP.stdIP else g.firstGateway4 := by
  rcases g with ⟨g4, g6⟩
  rcases a with ⟨ip, bits⟩
  cases ip <;> cases g4 <;> cases g6 <;> simp [gatewayStep, IP.Is4, IP.Is6, IPPrefix.IPNet]

theorem gatewayStep_firstGateway6 (g : Gateways) (a : IPPrefix) :
    (gatewayStep g a).firstGateway6 =
      if g.firstGateway6.isNone && a.IP.Is6 then some a.IP.stdIP else g.firstGateway6 := by
  rcases g with ⟨g4, g6⟩
  rcases a with ⟨ip, bits⟩
  cases ip <;> cases g4 <;> cases g6 <;> simp [gatewayStep, IP.Is4, IP.Is6, IPPrefix.IPNet]

theorem foldl_gatewayStep_firstGateway4 (l : List IPPrefix) (g : Gateways) :
    (l.foldl gatewayStep g).firstGateway4 =
      match g.firstGateway4 with
      | some x => some x
      | none => (l.find? (fun a => a.IP.Is4)).map (fun a => a.IP.stdIP) := by
  induction l generalizing g with
  | nil => cases h : g.firstGateway4 <;> simp [h]
  | cons a l ih =>
    rw [List.foldl_cons, ih, gatewayStep_firstGateway4]
    cases h : g.firstGateway4 <;> cases h4 : a.IP.Is4 <;> simp [h4, List.find?_cons]

theorem foldl_gatewayStep_firstGateway6 (l : List IPPrefix) (g : Gateways) :
    (l.foldl gatewayStep g).firstGateway6 =
      match g.firstGateway6 with
      | some x => some x
      | none => (l.find? (fun a => a.IP.Is6)).map (fun a => a.IP.stdIP) := by
  induction l generalizing g with
  | nil => cases h : g.firstGateway6 <;> simp [h]
  | cons a l ih =>
    rw [List.foldl_cons, ih, gatewayStep_firstGateway6]
    cases h : g.firstGateway6 <;> cases h6 : a.IP.Is6 <;> simp [h6, List.find?_cons]

theorem deriveGateways_firstGateway4 (cfg : Config) :
    (deriveGateways cfg).firstGateway4 =
      (cfg.LocalAddrs.find? (fun a => a.IP.Is4)).map (fun a => a.IP.stdIP) := by
  unfold deriveGateways
  rw [foldl_gatewayStep_firstGateway4]

theorem deriveGateways_firstGateway6 (cfg : Config) :
    (deriveGateways cfg).firstGateway6 =
      (cfg.LocalAddrs.find? (fun a => a.IP.Is6)).map (fun a => a.IP.stdIP) := by
  unfold deriveGateways
  rw [foldl_gatewayStep_firstGateway6]

theorem rejected_deriveGateways_iff (cfg : Config) (route : IPPrefix) :
    rejected (deriveGateways cfg) route = true ↔ lacksAddress cfg route := by
  unfold rejected lacksAddress
  rw [deriveGateways_firstGateway4, deriveGateways_firstGateway6]
  simp [List.find?_eq_none]

/-! ## Route building -/

theorem routeStep_eq (g : Gateways) (acc : RouteAcc) (route : IPPrefix) :
    (rejected g route = true ∧ routeStep g acc route = .error Error.noInterfaceAddress) ∨
    (rejected g route = false ∧ ∃ acc', routeStep g acc route = .ok acc' ∧
      acc'.routes = acc.routes ++ (emitted g route).toList) := by
  by_cases hrej : rejected g route = true
  · left
    refine ⟨hrej, ?_⟩
    unfold rejected at hrej
    unfold routeStep
    rw [if_pos hrej]
  · right
    have hrej' : rejected g route = false := by simpa using hrej
    refine ⟨hrej', ?_⟩
    unfold rejected at hrej
    unfold routeStep
    rw [if_neg hrej]
    simp only
    by_cases hz : bytesCompare (routeDestination route).IP (routeGateway g route) = 0
    · rw [if_pos hz]
      exact ⟨acc, rfl, by simp [emitted, hz]⟩
    · rw [if_neg hz]
      rcases route with ⟨ip, bits⟩
      cases ip <;> simp only [routeGateway, IP.Is4, IP.Is6, if_true, if_false,
        Bool.false_eq_true] at hz <;> simp [emitted, routeGateway, IP.Is4, IP.Is6, hz]

theorem routeLoop_spec (g : Gateways) (routes : List IPPrefix) (acc : RouteAcc) :
    ((∃ route ∈ routes, rejected g route = true) ∧
      routeLoop g acc routes = .error Error.noInterfaceAddress) ∨
    ((∀ route ∈ routes, rejected g route = false) ∧ ∃ acc', routeLoop g acc routes = .ok acc' ∧
      acc'.routes = acc.routes ++ routes.filterMap (emitted g)) := by
  induction routes generalizing acc with
  | nil => exact Or.inr ⟨by simp, acc, rfl, by simp⟩
  | cons route rest ih =>
    rcases routeStep_eq g acc route with ⟨hrej, hstep⟩ | ⟨hrej, acc1, hstep, hacc1⟩
    · left
      refine ⟨⟨route, List.mem_cons_self _ _, hrej⟩, ?_⟩
      simp only [routeLoop, hstep]
    · rcases ih acc1 with ⟨⟨r, hr, hrj⟩, hloop⟩ | ⟨hall, acc2, hloop, hacc2⟩
      · left
        refine ⟨⟨r, List.mem_cons_of_mem _ hr, hrj⟩, ?_⟩
        simp only [routeLoop, hstep, hloop]
      · right
        refine ⟨?_, acc2, ?_, ?_⟩
        · intro r hr
          rcases List.mem_cons.mp hr with rfl | hr
          · exact hrej
          · exact hall r hr
        · simp only [routeLoop, hstep, hloop]
        · rw [hacc2, hacc1, List.append_assoc]
          congr 1
          cases h : emitted g route <;> simp [List.filterMap_cons, h]

theorem buildRoutes_spec (cfg : Config) :
    ((∃ route ∈ cfg.Routes, lacksAddress cfg route) ∧
      buildRoutes cfg = .error Error.noInterfaceAddress) ∨
    ((∀ route ∈ cfg.Routes, ¬ lacksAddress cfg route) ∧ ∃ acc, buildRoutes cfg = .ok acc ∧
      acc.routes = cfg.Routes.filterMap (emitted (deriveGateways cfg))) := by
  unfold buildRoutes
  rcases routeLoop_spec (deriveGateways cfg) cfg.Routes
    { routes := [], foundDefault4 := false, foundDefault6 := false } with
    ⟨⟨r, hr, hrj⟩, hloop⟩ | ⟨hall, acc, hloop, hacc⟩
  · exact Or.inl ⟨⟨r, hr, (rejected_deriveGateways_iff cfg r).mp hrj⟩, hloop⟩
  · refine Or.inr ⟨fun r hr hl => ?_, acc, hloop, by simpa using hacc⟩
    have := (rejected_deriveGateways_iff cfg r).mpr hl
    rw [hall r hr] at this
    exact Bool.false_ne_true this

theorem buildRoutes_ok_routes {cfg : Config} {acc : RouteAcc} (h : buildRoutes cfg = .ok acc) :
    (∀ route ∈ cfg.Routes, ¬ lacksAddress cfg route) ∧
      acc.routes = cfg.Routes.filterMap (emitted (deriveGateways cfg)) := by
  rcases buildRoutes_spec cfg with ⟨_, herr⟩ | ⟨hall, acc', hok, hacc⟩
  · rw [herr] at h
    cases h
  · rw [hok] at h
    cases h
    exact ⟨hall, hacc⟩

theorem mem_buildRoutes {cfg : Config} {acc : RouteAcc} (h : buildRoutes cfg = .ok acc)
    (r : RouteData) :
    r ∈ acc.routes ↔ ∃ route ∈ cfg.Routes,
      (routeDestination route).IP ≠ routeGateway (deriveGateways cfg) route ∧
      r = { Destination := routeDestination route,
            NextHop := routeGateway (deriveGateways cfg) route, Metric := 0 } := by
  rw [(buildRoutes_ok_routes h).2, List.mem_filterMap]
  constructor
  · rintro ⟨route, hroute, hem⟩
    refine ⟨route, hroute, ?_⟩
    unfold emitted at hem
    split_ifs at hem with hz
    rw [bytesCompare_eq_zero] at hz
    exact ⟨hz, (Option.some.inj hem).symm⟩
  · rintro ⟨route, hroute, hne, rfl⟩
    refine ⟨route, hroute, ?_⟩
    unfold emitted
    rw [if_neg (fun hz => hne (bytesCompare_eq_zero.mp hz))]

/-! ## Masks and masked destinations -/

theorem beBytes_length (n x : Nat) : (beBytes n x).length = n := by
  induction n with
  | zero => rfl
  | succ n ih => simp [beBytes, ih]

theorem cidrMaskBytes_length (l n : Nat) : (cidrMaskBytes l n).length = l := by
  induction l generalizing n with
  | zero => rfl
  | succ l ih =>
    unfold cidrMaskBytes
    split_ifs <;> simp [ih]

theorem ipMask_of_length_eq {ip mask : List Nat} (h : ip.length = mask.length) :
    ipMask ip mask = List.zipWith (fun a b => a &&& b) ip mask := by
  unfold ipMask
  have h1 : ¬ (mask.length = 16 ∧ ip.length = 4 ∧ allFF (mask.take 12) = true) := by
    rintro ⟨h16, h4, _⟩
    omega
  have h2 : ¬ (mask.length = 4 ∧ ip.length = 16 ∧ ip.take 12 = v4InV6Prefix) := by
    rintro ⟨h4, h16, _⟩
    omega
  simp only [h1, h2, if_false]
  rw [if_neg (not_not.mpr h)]

theorem ipMask_nil_left (mask : List Nat) : ipMask [] mask = [] := by
  unfold ipMask
  simp

theorem ipMask_nil_right (ip : List Nat) (h : ip.length = 4 ∨ ip.length = 16) :
    ipMask ip [] = [] := by
  unfold ipMask
  have hne : ip.length ≠ 0 := by omega
  simp [hne]

theorem getD_zipWith_land (a b : List Nat) (h : a.length = b.length) (k : Nat) :
    (List.zipWith (fun x y => x &&& y) a b).getD k 0 = a.getD k 0 &&& b.getD k 0 := by
  induction a generalizing b k with
  | nil =>
    cases b with
    | nil => simp
    | cons y ys => simp at h
  | cons x xs ih =>
    cases b with
    | nil => simp at h
    | cons y ys =>
      cases k with
      | zero => simp
      | succ k =>
        simp only [List.zipWith_cons_cons, List.getD_cons_succ]
        exact ih ys (by simpa using h) k

theorem bitAt_zipWith_land (a b : List Nat) (h : a.length = b.length) (i : Nat) :
    bitAt (List.zipWith (fun x y => x &&& y) a b) i = (bitAt a i && bitAt b i) := by
  unfold bitAt
  rw [getD_zipWith_land a b h, Nat.testBit_land]

theorem bitAt_cons_lt (x : Nat) (xs : List Nat) (i : Nat) (h : i < 8) :
    bitAt (x :: xs) i = x.testBit (7 - i) := by
  unfold bitAt
  have h1 : i / 8 = 0 := Nat.div_eq_of_lt h
  have h2 : i % 8 = i := Nat.mod_eq_of_lt h
  rw [h1, h2]
  rfl

theorem bitAt_cons_ge (x : Nat) (xs : List Nat) (i : Nat) (h : 8 ≤ i) :
    bitAt (x :: xs) i = bitAt xs (i - 8) := by
  unfold bitAt
  obtain ⟨j, rfl⟩ : ∃ j, i = j + 8 := ⟨i - 8, by omega⟩
  have h1 : (j + 8) / 8 = j / 8 + 1 := by omega
  have h2 : (j + 8) % 8 = j % 8 := by omega
  rw [h1, h2, Nat.add_sub_cancel, List.getD_cons_succ]

theorem testBit_maskByte (n i : Nat) (hn : n < 8) (hi : i < 8) :
    (0xff ^^^ (0xff >>> n)).testBit (7 - i) = decide (i < n) := by
  interval_cases n <;> interval_cases i <;> decide

theorem testBit_ff (i : Nat) (hi : i < 8) : (0xff : Nat).testBit (7 - i) = true := by
  interval_cases i <;> decide

theorem bitAt_cidrMaskBytes (l n i : Nat) (hi : i < 8 * l) :
    bitAt (cidrMaskBytes l n) i = decide (i < n) := by
  induction l generalizing n i with
  | zero => omega
  | succ l ih =>
    unfold cidrMaskBytes
    by_cases hn : n ≥ 8
    · rw [if_pos hn]
      by_cases h8 : i < 8
      · rw [bitAt_cons_lt _ _ _ h8, testBit_ff i h8]
        simp
        omega
      · rw [bitAt_cons_ge _ _ _ (by omega), ih (n - 8) (i - 8) (by omega)]
        simp
        omega
    · rw [if_neg hn]
      by_cases h8 : i < 8
      · rw [bitAt_cons_lt _ _ _ h8, testBit_maskByte n i (by omega) h8]
      · rw [bitAt_cons_ge _ _ _ (by omega), ih 0 (i - 8) (by omega)]
        simp
        omega

theorem routeDestination_mask (route : IPPrefix) (hz : route.IP ≠ IP.zero) :
    (routeDestination route).Mask = CIDRMask route.Bits route.IP.BitLen := by
  rcases route with ⟨ip, bits⟩
  cases ip with
  | zero => exact absurd rfl hz
  | v4 a => rfl
  | v6 a => rfl

theorem stdIP_length (ip : IP) : ip.stdIP.length = ip.BitLen / 8 := by
  cases ip <;> simp [IP.stdIP, IP.BitLen, beBytes_length]

theorem CIDRMask_valid (ip : IP) (hz : ip ≠ IP.zero) (bits : Nat) (h : bits ≤ ip.BitLen) :
    CIDRMask bits ip.BitLen = cidrMaskBytes (ip.BitLen / 8) bits := by
  cases ip with
  | zero => exact absurd rfl hz
  | v4 a =>
    simp only [IP.BitLen] at h ⊢
    unfold CIDRMask
    simp
    omega
  | v6 a =>
    simp only [IP.BitLen] at h ⊢
    unfold CIDRMask
    simp
    omega

theorem CIDRMask_invalid (ip : IP) (bits : Nat) (h : ¬ bits ≤ ip.BitLen) :
    CIDRMask bits ip.BitLen = [] := by
  unfold CIDRMask
  split_ifs with h1 h2
  · rfl
  · rfl
  · omega

theorem routeDestination_ip (route : IPPrefix) (hz : route.IP ≠ IP.zero) :
    (routeDestination route).IP = ipMask route.IP.stdIP (CIDRMask route.Bits route.IP.BitLen) := by
  rcases route with ⟨ip, bits⟩
  cases ip with
  | zero => exact absurd rfl hz
  | v4 a => rfl
  | v6 a => rfl

theorem routeDestination_ip_valid (route : IPPrefix) (hz : route.IP ≠ IP.zero)
    (h : route.Bits ≤ route.IP.BitLen) :
    (routeDestination route).IP =
      List.zipWith (fun a b => a &&& b) route.IP.stdIP
        (cidrMaskBytes (route.IP.BitLen / 8) route.Bits) := by
  rw [routeDestination_ip route hz, CIDRMask_valid route.IP hz route.Bits h]
  exact ipMask_of_length_eq (by rw [stdIP_length, cidrMaskBytes_length])

theorem routeDestination_ip_invalid (route : IPPrefix) (h : ¬ route.Bits ≤ route.IP.BitLen) :
    (routeDestination route).IP = [] := by
  by_cases hz : route.IP = IP.zero
  · unfold routeDestination IPPrefix.IPNet
    rw [hz]
    exact ipMask_nil_left _
  · rw [routeDestination_ip route hz, CIDRMask_invalid route.IP route.Bits h]
    apply ipMask_nil_right
    rw [stdIP_length]
    rcases route with ⟨ip, bits⟩
    cases ip with
    | zero => exact absurd rfl hz
    | v4 a => left; simp [IP.BitLen]
    | v6 a => right; simp [IP.BitLen]

theorem routeDestination_zero (bits : Nat) :
    (routeDestination { IP := IP.zero, Bits := bits }).IP = [] := by
  unfold routeDestination IPPrefix.IPNet
  exact ipMask_nil_left _

theorem zipWith_land_idem (a b : List Nat) :
    List.zipWith (fun x y => x &&& y) (List.zipWith (fun x y => x &&& y) a b) b =
      List.zipWith (fun x y => x &&& y) a b := by
  induction a generalizing b with
  | nil => simp
  | cons x xs ih =>
    cases b with
    | nil => simp
    | cons y ys =>
      simp only [List.zipWith_cons_cons, ih]
      congr 1
      rw [Nat.and_assoc, Nat.and_self]

/-- Masking a masked destination again with its mask changes nothing. -/
theorem routeDestination_canonical (route : IPPrefix) :
    ipMask (routeDestination route).IP (routeDestination route).Mask =
      (routeDestination route).IP := by
  by_cases hz : route.IP = IP.zero
  · rcases route with ⟨ip, bits⟩
    simp only at hz
    subst hz
    rw [routeDestination_zero]
    exact ipMask_nil_left _
  · by_cases h : route.Bits ≤ route.IP.BitLen
    · rw [routeDestination_mask route hz, routeDestination_ip_valid route hz h,
        CIDRMask_valid route.IP hz route.Bits h]
      rw [ipMask_of_length_eq (by
        rw [List.length_zipWith, stdIP_length, cidrMaskBytes_length, Nat.min_self])]
      exact zipWith_land_idem _ _
    · rw [routeDestination_ip_invalid route h]
      exact ipMask_nil_left _

/-- The bits of a masked destination: those of the declared address in the first `Bits`
positions, zero in the others. -/
theorem routeDestination_bits (route : IPPrefix) (hz : route.IP ≠ IP.zero)
    (h : route.Bits ≤ route.IP.BitLen) :
    (routeDestination route).IP.length = route.IP.BitLen / 8 ∧
    ∀ i, i < route.IP.BitLen →
      bitAt (routeDestination route).IP i = (decide (i < route.Bits) && bitAt route.IP.stdIP i) := by
  rw [routeDestination_ip_valid route hz h]
  have hlen : route.IP.stdIP.length = (cidrMaskBytes (route.IP.BitLen / 8) route.Bits).length := by
    rw [stdIP_length, cidrMaskBytes_length]
  refine ⟨by rw [List.length_zipWith, ← hlen, Nat.min_self, stdIP_length], fun i hi => ?_⟩
  rw [bitAt_zipWith_land _ _ hlen, bitAt_cidrMaskBytes _ _ _ (by
    rcases route with ⟨ip, bits⟩
    cases ip with
    | zero => exact absurd rfl hz
    | v4 a => simpa [IP.BitLen] using hi
    | v6 a => simpa [IP.BitLen] using hi)]
  exact Bool.and_comm _ _

/-- The gateway of a declared route that is not rejected: the address of the first entry of
`cfg.LocalAddrs` in the family of the route. -/
theorem routeGateway_first (cfg : Config) (route : IPPrefix) (hz : route.IP ≠ IP.zero)
    (hl : ¬ lacksAddress cfg route) :
    ∃ a, cfg.LocalAddrs.find? (fun a => sameFamily a.IP route.IP) = some a ∧
      routeGateway (deriveGateways cfg) route = a.IP.stdIP := by
  rcases route with ⟨ip, bits⟩
  cases ip with
  | zero => exact absurd rfl hz
  | v4 x =>
    have hfun : (fun a : IPPrefix => sameFamily a.IP (IP.v4 x)) = (fun a => a.IP.Is4) := by
      funext a
      simp [sameFamily, IP.Is4, IP.Is6]
    rw [hfun]
    cases hf : cfg.LocalAddrs.find? (fun a => a.IP.Is4) with
    | none =>
      exfalso
      apply hl
      left
      refine ⟨rfl, fun a ha => ?_⟩
      have := List.find?_eq_none.mp hf a ha
      simpa using this
    | some a =>
      refine ⟨a, rfl, ?_⟩
      unfold routeGateway
      rw [deriveGateways_firstGateway4, hf]
      rfl
  | v6 x =>
    have hfun : (fun a : IPPrefix => sameFamily a.IP (IP.v6 x)) = (fun a => a.IP.Is6) := by
      funext a
      simp [sameFamily, IP.Is4, IP.Is6]
    rw [hfun]
    cases hf : cfg.LocalAddrs.find? (fun a => a.IP.Is6) with
    | none =>
      exfalso
      apply hl
      right
      refine ⟨rfl, fun a ha => ?_⟩
      have := List.find?_eq_none.mp hf a ha
      simpa using this
    | some a =>
      refine ⟨a, rfl, ?_⟩
      unfold routeGateway
      rw [deriveGateways_firstGateway6, hf]
      rfl

theorem mem_deduplicate_sortSlice {routes : List RouteData} {r : RouteData}
    (h : r ∈ deduplicate (sortSlice routeLess routes)) : r ∈ routes :=
  (sortSlice_routeLess_perm routes).mem_iff.mp
    ((deduplicate_spec _ (sortSlice_routeLess_sorted routes)).1 r h)

/-! ## Bring-up: what reaches the synchronizers -/

theorem configureV6_events (os : OS) (mtu : Nat) (fd : Bool) (errAcc : Option Error)
    (events : List Event) :
    ∀ e ∈ (configureV6 os mtu fd errAcc events).2,
      e ∈ events ∨ ∃ row, e = Event.setIPInterface Family.AF_INET6 row := by
  intro e he
  unfold configureV6 at he
  cases h6 : os.IPInterface Family.AF_INET6 with
  | error err =>
    rw [h6] at he
    simp only at he
    split_ifs at he <;> exact Or.inl he
  | ok ipif =>
    rw [h6] at he
    simp only [List.mem_append, List.mem_singleton] at he
    rcases he with he | he
    · exact Or.inl he
    · exact Or.inr ⟨_, he⟩

theorem configureV4_events (os : OS) (acc : RouteAcc) (errAcc : Option Error)
    (events : List Event) :
    ∀ e ∈ (configureV4 os 0 acc errAcc events).2,
      e ∈ events ∨ ∃ family row, e = Event.setIPInterface family row := by
  intro e he
  unfold configureV4 at he
  cases h4 : os.IPInterface Family.AF_INET with
  | error err =>
    rw [h4] at he
    exact Or.inl he
  | ok ipif =>
    rw [h4] at he
    simp only [Nat.lt_irrefl, if_false] at he
    rcases configureV6_events _ _ _ _ _ e he with h | ⟨row, h⟩
    · simp only [List.mem_append, List.mem_singleton] at h
      rcases h with h | h
      · exact Or.inl h
      · exact Or.inr ⟨_, _, h⟩
    · exact Or.inr ⟨_, _, h⟩

theorem configureInterfaceWith_of_buildRoutes_error (syncA : List IPNet → Except Error Unit)
    (syncR : List RouteData → Except Error Unit) (os : OS) (cfg : Config) (err : Error)
    (h : buildRoutes cfg = .error err) :
    ∃ err', configureInterfaceWith syncA syncR os cfg = (some err', []) ∧
      (os.interfaceFromGUID = .ok () → err' = err) := by
  unfold configureInterfaceWith
  cases hg : os.interfaceFromGUID with
  | error e => exact ⟨e, rfl, fun h' => by cases h'⟩
  | ok u => exact ⟨err, by simp only [h], fun _ => rfl⟩

theorem configureInterfaceWith_syncRoutes (syncA : List IPNet → Except Error Unit)
    (syncR : List RouteData → Except Error Unit) (os : OS) (cfg : Config)
    (want : List RouteData)
    (h : Event.syncRoutes want ∈ (configureInterfaceWith syncA syncR os cfg).2) :
    ∃ acc, buildRoutes cfg = .ok acc ∧ want = deduplicate (sortSlice routeLess acc.routes) := by
  unfold configureInterfaceWith at h
  cases hg : os.interfaceFromGUID with
  | error e =>
    rw [hg] at h
    simp at h
  | ok u =>
    rw [hg] at h
    cases hb : buildRoutes cfg with
    | error e =>
      rw [hb] at h
      simp at h
    | ok acc =>
      rw [hb] at h
      cases ha : syncA (localAddresses cfg) with
      | error e =>
        rw [ha] at h
        simp at h
      | ok u' =>
        rw [ha] at h
        simp only at h
        rcases configureV4_events _ _ _ _ _ h with h' | ⟨f, row, h'⟩
        · simp only [List.mem_cons, List.mem_singleton, List.not_mem_nil, or_false] at h'
          rcases h' with h' | h'
          · cases h'
          · exact ⟨acc, rfl, Event.syncRoutes.inj h'⟩
        · cases h'

/-- C4. A configuration with a declared route in a family (IPv4 or IPv6) that has no address
in `cfg.LocalAddrs` makes `configureInterface` return an error without any call to
`syncAddresses` or `syncRoutes` (no call with an effect at all), and route building fails,
always with the error about interface routes without an interface address, exactly when the
configuration has such a route. -/
theorem configureInterface_route_without_address :
    (∀ (syncA : List IPNet → Except Error Unit) (syncR : List RouteData → Except Error Unit)
      (os : OS) (cfg : Config), (∃ route ∈ cfg.Routes, lacksAddress cfg route) →
        ∃ err, configureInterfaceWith syncA syncR os cfg = (some err, []) ∧
          (os.interfaceFromGUID = .ok () → err = Error.noInterfaceAddress)) ∧
    (∀ (os : OS) (cfg : Config), (∃ route ∈ cfg.Routes, lacksAddress cfg route) →
        ∃ err, configureInterface os cfg = (some err, [])) ∧
    (∀ (cfg : Config) (err : Error), buildRoutes cfg = .error err →
        err = Error.noInterfaceAddress ∧ ∃ route ∈ cfg.Routes, lacksAddress cfg route) ∧
    (∀ cfg : Config, (∃ route ∈ cfg.Routes, lacksAddress cfg route) →
        buildRoutes cfg = .error Error.noInterfaceAddress) := by
  have hfail : ∀ cfg : Config, (∃ route ∈ cfg.Routes, lacksAddress cfg route) →
      buildRoutes cfg = .error Error.noInterfaceAddress := by
    intro cfg hex
    rcases buildRoutes_spec cfg with ⟨_, herr⟩ | ⟨hall, _⟩
    · exact herr
    · obtain ⟨route, hr, hl⟩ := hex
      exact absurd hl (hall route hr)
  refine ⟨?_, ?_, ?_, hfail⟩
  · intro syncA syncR os cfg hex
    exact configureInterfaceWith_of_buildRoutes_error syncA syncR os cfg _ (hfail cfg hex)
  · intro os cfg hex
    obtain ⟨err, h, _⟩ :=
      configureInterfaceWith_of_buildRoutes_error syncAddresses syncRoutes os cfg _ (hfail cfg hex)
    exact ⟨err, h⟩
  · intro cfg err h
    rcases buildRoutes_spec cfg with ⟨hex, herr⟩ | ⟨_, acc, hok, _⟩
    · rw [herr] at h
      cases h
      exact ⟨rfl, hex⟩
    · rw [hok] at h
      cases h

/-- Witness for C4: an IPv6 default route with IPv4 addresses only. -/
theorem configureInterface_route_without_address_witness :
    ∃ err, configureInterface exampleOS noAddress6Config = (some err, []) :=
  configureInterface_route_without_address.2.1 exampleOS noAddress6Config
    ⟨⟨IP.v6 0, 0⟩, by decide, Or.inr ⟨rfl, by decide⟩⟩

/-! ## The entries route building emits -/

theorem buildRoutes_entry {cfg : Config} {acc : RouteAcc} (h : buildRoutes cfg = .ok acc)
    {r : RouteData} (hr : r ∈ acc.routes) :
    ∃ route ∈ cfg.Routes, route.IP ≠ IP.zero ∧
      ∃ a, cfg.LocalAddrs.find? (fun a => sameFamily a.IP route.IP) = some a ∧
        r = { Destination := routeDestination route, NextHop := a.IP.stdIP, Metric := 0 } ∧
        (routeDestination route).IP ≠ a.IP.stdIP := by
  obtain ⟨route, hroute, hne, hreq⟩ := (mem_buildRoutes h r).mp hr
  have hz : route.IP ≠ IP.zero := by
    intro hz
    apply hne
    rcases route with ⟨ip, bits⟩
    simp only at hz
    subst hz
    rw [routeDestination_zero]
    rfl
  obtain ⟨a, hfind, hgw⟩ :=
    routeGateway_first cfg route hz ((buildRoutes_ok_routes h).1 route hroute)
  refine ⟨route, hroute, hz, a, hfind, ?_, ?_⟩
  · rw [hreq, hgw]
  · rw [← hgw]
    exact hne

theorem sameFamily_gateway (cfg : Config) (route a : IPPrefix)
    (hfind : cfg.LocalAddrs.find? (fun a => sameFamily a.IP route.IP) = some a) :
    routeGateway (deriveGateways cfg) route = a.IP.stdIP := by
  have hz : route.IP ≠ IP.zero := by
    intro hz
    have := List.find?_some hfind
    rw [hz] at this
    simp [sameFamily, IP.Is4, IP.Is6] at this
  have hl : ¬ lacksAddress cfg route := by
    intro hl
    have hs := List.find?_some hfind
    have hm := List.mem_of_find?_eq_some hfind
    rcases hl with ⟨h4, hall⟩ | ⟨h6, hall⟩
    · have := hall a hm
      rcases route with ⟨ip, bits⟩
      cases ip <;> simp_all [sameFamily, IP.Is4, IP.Is6]
    · have := hall a hm
      rcases route with ⟨ip, bits⟩
      cases ip <;> simp_all [sameFamily, IP.Is4, IP.Is6]
  obtain ⟨a', hfind', hgw⟩ := routeGateway_first cfg route hz hl
  rw [hfind] at hfind'
  cases hfind'
  exact hgw

/-- C3, the counterexample: with the address 10.0.0.5/24 on the tunnel, the declared route
10.0.0.0/24 is not elided; it is built with next hop 10.0.0.5 and is in the list handed to
`syncRoutes`. -/
theorem subnet_route_not_elided :
    ∃ acc, buildRoutes subnetRouteConfig = .ok acc ∧
      deduplicate (sortSlice routeLess acc.routes) =
        [⟨⟨[10, 0, 0, 0], [255, 255, 255, 0]⟩, [10, 0, 0, 5], 0⟩] ∧
      (configureInterfaceWith (fun _ => .ok ()) (fun _ => .ok ()) exampleOS subnetRouteConfig).2 =
        [Event.syncAddresses [⟨[10, 0, 0, 5], [255, 255, 255, 0]⟩],
         Event.syncRoutes [⟨⟨[10, 0, 0, 0], [255, 255, 255, 0]⟩, [10, 0, 0, 5], 0⟩],
         Event.setIPInterface Family.AF_INET ⟨1500, true, 10, 1, 1⟩,
         Event.setIPInterface Family.AF_INET6 ⟨1500, true, 10, 0, 0⟩] :=
  ⟨_, rfl, by decide, by rfl⟩

/-- C3, amended. When route building succeeds, every entry built, and so every entry handed
to `syncRoutes`, comes from a declared route whose masked destination is not the gateway of
its family, the gateway being the address of the first entry of `cfg.LocalAddrs` in that
family; a declared route is dropped exactly when its masked destination is that address. -/
theorem buildRoutes_drops_gateway_routes (cfg : Config) (acc : RouteAcc)
    (h : buildRoutes cfg = .ok acc) :
    (∀ r ∈ acc.routes, ∃ route ∈ cfg.Routes,
      ∃ a, cfg.LocalAddrs.find? (fun a => sameFamily a.IP route.IP) = some a ∧
        r = { Destination := routeDestination route, NextHop := a.IP.stdIP, Metric := 0 } ∧
        r.Destination.IP ≠ a.IP.stdIP) ∧
    (∀ r ∈ deduplicate (sortSlice routeLess acc.routes), r ∈ acc.routes) ∧
    (∀ (syncA : List IPNet → Except Error Unit) (syncR : List RouteData → Except Error Unit)
      (os : OS) (want : List RouteData),
      Event.syncRoutes want ∈ (configureInterfaceWith syncA syncR os cfg).2 →
        want = deduplicate (sortSlice routeLess acc.routes)) ∧
    (∀ route ∈ cfg.Routes,
      ∀ a, cfg.LocalAddrs.find? (fun a => sameFamily a.IP route.IP) = some a →
        ((routeDestination route).IP = a.IP.stdIP ↔
          ({ Destination := routeDestination route, NextHop := a.IP.stdIP, Metric := 0 } :
            RouteData) ∉ acc.routes)) := by
  refine ⟨?_, fun r hr => mem_deduplicate_sortSlice hr, ?_, ?_⟩
  · intro r hr
    obtain ⟨route, hroute, _, a, hfind, hreq, hne⟩ := buildRoutes_entry h hr
    exact ⟨route, hroute, a, hfind, hreq, by rw [hreq]; exact hne⟩
  · intro syncA syncR os want hw
    obtain ⟨acc', hacc', hwant⟩ := configureInterfaceWith_syncRoutes syncA syncR os cfg want hw
    rw [h] at hacc'
    cases hacc'
    exact hwant
  · intro route hroute a hfind
    have hgw := sameFamily_gateway cfg route a hfind
    constructor
    · intro heq hmem
      obtain ⟨route', _, hne', hreq'⟩ := (mem_buildRoutes h _).mp hmem
      apply hne'
      have h1 : routeDestination route = routeDestination route' := by
        have := congrArg RouteData.Destination hreq'
        simpa using this
      have h2 : a.IP.stdIP = routeGateway (deriveGateways cfg) route' := by
        have := congrArg RouteData.NextHop hreq'
        simpa using this
      rw [← h1, ← h2]
      exact heq
    · intro hnot
      by_contra hne
      apply hnot
      refine (mem_buildRoutes h _).mpr ⟨route, hroute, ?_, ?_⟩
      · rw [hgw]
        exact hne
      · rw [hgw]

/-- Witness for C3 as amended: with the addresses 10.0.0.5/24 and 10.0.0.9/24, the declared
route 10.0.0.5/32 is dropped, the subnet 10.0.0.0/24 and the default route are kept. -/
theorem buildRoutes_drops_gateway_routes_witness :
    buildRoutes ownAddressConfig =
      .ok ⟨[⟨⟨[10, 0, 0, 0], [255, 255, 255, 0]⟩, [10, 0, 0, 5], 0⟩,
            ⟨⟨[0, 0, 0, 0], [0, 0, 0, 0]⟩, [10, 0, 0, 5], 0⟩], true, false⟩ ∧
    ((routeDestination ⟨ip4 10 0 0 5, 32⟩).IP = (ip4 10 0 0 5).stdIP ↔
      ({ Destination := routeDestination ⟨ip4 10 0 0 5, 32⟩, NextHop := (ip4 10 0 0 5).stdIP,
         Metric := 0 } : RouteData) ∉
        [⟨⟨[10, 0, 0, 0], [255, 255, 255, 0]⟩, [10, 0, 0, 5], 0⟩,
         ⟨⟨[0, 0, 0, 0], [0, 0, 0, 0]⟩, [10, 0, 0, 5], 0⟩]) :=
  ⟨rfl, (buildRoutes_drops_gateway_routes ownAddressConfig _ rfl).2.2.2 ⟨ip4 10 0 0 5, 32⟩
    (by decide) ⟨ip4 10 0 0 5, 24⟩ rfl⟩

/-- The mask of a declared route with a prefix length within the width of its family: as
many bytes as the address, the first `Bits` bits set and the others zero. -/
theorem routeDestination_mask_bits (route : IPPrefix) (hz : route.IP ≠ IP.zero)
    (h : route.Bits ≤ route.IP.BitLen) :
    (routeDestination route).Mask.length = route.IP.BitLen / 8 ∧
    ∀ i, i < route.IP.BitLen →
      bitAt (routeDestination route).Mask i = decide (i < route.Bits) := by
  rw [routeDestination_mask route hz, CIDRMask_valid route.IP hz route.Bits h]
  refine ⟨cidrMaskBytes_length _ _, fun i hi => ?_⟩
  apply bitAt_cidrMaskBytes
  rcases route with ⟨ip, bits⟩
  cases ip with
  | zero => exact absurd rfl hz
  | v4 a => simpa [IP.BitLen] using hi
  | v6 a => simpa [IP.BitLen] using hi

/-- C5, the counterexample: with the address 10.0.0.5/24 on the tunnel, route building
succeeds on the declared route 10.1.2.3/33 and emits an entry with nil destination and nil
mask (`net.CIDRMask(33, 32)` is nil, and `IP.Mask` with a nil mask is nil), which is also
what is handed to `syncRoutes`: bit 4 of the declared address is set and is within the
declared prefix length, and the destination does not have it. -/
theorem overlong_prefix_destination_nil :
    buildRoutes overlongPrefixConfig =
      .ok ⟨[⟨⟨[], []⟩, [10, 0, 0, 5], 0⟩], false, false⟩ ∧
    deduplicate (sortSlice routeLess [⟨⟨[], []⟩, [10, 0, 0, 5], 0⟩]) =
      [⟨⟨[], []⟩, [10, 0, 0, 5], 0⟩] ∧
    (ip4 10 1 2 3).stdIP = [10, 1, 2, 3] ∧
    bitAt (ip4 10 1 2 3).stdIP 4 = true ∧
    bitAt ([] : List Nat) 4 = false ∧
    ([] : List Nat).length ≠ (ip4 10 1 2 3).stdIP.length :=
  ⟨by rfl, by decide, by rfl, by rfl, by rfl, by decide⟩

/-- C5, amended. When route building succeeds, every entry it emits (and so every entry
handed to `syncRoutes`) comes from a declared route in such a way that its metric is 0 and
its next hop is the address of the first entry of `cfg.LocalAddrs` in the family of the
route; its mask is `net.CIDRMask` of the declared prefix length and its destination the
declared address masked with it, which masking again does not change. When the declared
prefix length is within the width of the family, mask and destination have the length of
the address, the mask has its first `Bits` bits set and the others zero, and the
destination has the bits of the declared address in the first `Bits` positions and zero
bits after them. -/
theorem buildRoutes_entries_canonical (cfg : Config) (acc : RouteAcc)
    (h : buildRoutes cfg = .ok acc) :
    (∀ r ∈ acc.routes, ∃ route ∈ cfg.Routes,
      ∃ a, cfg.LocalAddrs.find? (fun a => sameFamily a.IP route.IP) = some a ∧
        r.NextHop = a.IP.stdIP ∧
        r.Metric = 0 ∧
        r.Destination.Mask = CIDRMask route.Bits route.IP.BitLen ∧
        r.Destination.IP = ipMask route.IP.stdIP (CIDRMask route.Bits route.IP.BitLen) ∧
        ipMask r.Destination.IP r.Destination.Mask = r.Destination.IP ∧
        (route.Bits ≤ route.IP.BitLen →
          r.Destination.IP.length = route.IP.BitLen / 8 ∧
          (∀ i, i < route.IP.BitLen →
            bitAt r.Destination.IP i = (decide (i < route.Bits) && bitAt route.IP.stdIP i)) ∧
          r.Destination.Mask.length = route.IP.BitLen / 8 ∧
          (∀ i, i < route.IP.BitLen →
            bitAt r.Destination.Mask i = decide (i < route.Bits)))) ∧
    (∀ r ∈ deduplicate (sortSlice routeLess acc.routes), r ∈ acc.routes) := by
  refine ⟨?_, fun r hr => mem_deduplicate_sortSlice hr⟩
  intro r hr
  obtain ⟨route, hroute, hz, a, hfind, hreq, _⟩ := buildRoutes_entry h hr
  subst hreq
  exact ⟨route, hroute, a, hfind, rfl, rfl, routeDestination_mask route hz,
    routeDestination_ip route hz, routeDestination_canonical route,
    fun hb => ⟨(routeDestination_bits route hz hb).1, (routeDestination_bits route hz hb).2,
      (routeDestination_mask_bits route hz hb).1, (routeDestination_mask_bits route hz hb).2⟩⟩

/-- Witness for C5 as amended: the addresses 10.0.0.5/24 and 10.0.0.9/24 with the declared
routes 10.0.0.5/32, 10.0.0.77/24 and 0.0.0.0/0; the entry built for 10.0.0.77/24. -/
theorem buildRoutes_entries_canonical_witness :
    buildRoutes ownAddressConfig =
      .ok ⟨[⟨⟨[10, 0, 0, 0], [255, 255, 255, 0]⟩, [10, 0, 0, 5], 0⟩,
            ⟨⟨[0, 0, 0, 0], [0, 0, 0, 0]⟩, [10, 0, 0, 5], 0⟩], true, false⟩ ∧
    ∃ route ∈ ownAddressConfig.Routes,
      ∃ a, ownAddressConfig.LocalAddrs.find? (fun a => sameFamily a.IP route.IP) = some a ∧
        [10, 0, 0, 5] = a.IP.stdIP ∧
        0 = 0 ∧
        [255, 255, 255, 0] = CIDRMask route.Bits route.IP.BitLen ∧
        [10, 0, 0, 0] = ipMask route.IP.stdIP (CIDRMask route.Bits route.IP.BitLen) ∧
        ipMask [10, 0, 0, 0] [255, 255, 255, 0] = [10, 0, 0, 0] ∧
        (route.Bits ≤ route.IP.BitLen →
          [10, 0, 0, 0].length = route.IP.BitLen / 8 ∧
          (∀ i, i < route.IP.BitLen →
            bitAt [10, 0, 0, 0] i = (decide (i < route.Bits) && bitAt route.IP.stdIP i)) ∧
          [255, 255, 255, 0].length = route.IP.BitLen / 8 ∧
          (∀ i, i < route.IP.BitLen →
            bitAt [255, 255, 255, 0] i = decide (i < route.Bits))) :=
  ⟨rfl, (buildRoutes_entries_canonical ownAddressConfig _ rfl).1
    ⟨⟨[10, 0, 0, 0], [255, 255, 255, 0]⟩, [10, 0, 0, 5], 0⟩ (by decide)⟩

/-! ## The default-route monitor: selection of the egress interface -/

theorem selectRoute_eq_foldl_pick (ourLuid : Nat) (routes : List RouteRow) (s : Selection) :
    routes.foldl (selectStep ourLuid) s = (candidates ourLuid routes).foldl pick s := by
  induction routes generalizing s with
  | nil => rfl
  | cons r rest ih =>
    unfold candidates
    rw [List.foldl_cons, List.filter_cons]
    by_cases hc : r.PrefixLength = 0 ∧ r.InterfaceLUID ≠ ourLuid
    · have hs : selectStep ourLuid s r = pick s r := by
        unfold selectStep pick
        rw [if_neg (by rintro (h | h); exact h hc.1; exact hc.2 h)]
      rw [if_pos (by simpa using hc), List.foldl_cons, hs, ih]
      rfl
    · have hs : selectStep ourLuid s r = s := by
        unfold selectStep
        rw [if_pos (by
          by_contra hcon
          apply hc
          constructor
          · by_contra h0
            exact hcon (Or.inl h0)
          · intro hl
            exact hcon (Or.inr hl))]
      rw [if_neg (by simpa using hc), hs, ih]
      rfl

theorem foldl_pick_spec (c : List RouteRow) (s : Selection) :
    ((∀ r ∈ c, s.lowestMetric ≤ r.Metric) ∧ c.foldl pick s = s) ∨
    (∃ r ∈ c, c.foldl pick s =
        { lowestMetric := r.Metric, index := r.InterfaceIndex, luid := r.InterfaceLUID } ∧
      r.Metric < s.lowestMetric ∧ (∀ r' ∈ c, r.Metric ≤ r'.Metric) ∧
      c.find? (fun r' => decide (r'.Metric ≤ r.Metric)) = some r) := by
  induction c generalizing s with
  | nil => exact Or.inl ⟨by simp, rfl⟩
  | cons x c ih =>
    rw [List.foldl_cons]
    by_cases hx : x.Metric < s.lowestMetric
    · have hp : pick s x =
          { lowestMetric := x.Metric, index := x.InterfaceIndex, luid := x.InterfaceLUID } := by
        unfold pick
        rw [if_pos hx]
      rw [hp]
      right
      rcases ih { lowestMetric := x.Metric, index := x.InterfaceIndex,
                  luid := x.InterfaceLUID } with ⟨hall, hfold⟩ | ⟨r, hr, hfold, hlt, hmin, hfind⟩
      · refine ⟨x, List.mem_cons_self _ _, hfold, hx, ?_, ?_⟩
        · intro r' hr'
          rcases List.mem_cons.mp hr' with rfl | hr'
          · exact Nat.le_refl _
          · exact hall r' hr'
        · simp [List.find?_cons]
      · simp only at hlt
        refine ⟨r, List.mem_cons_of_mem _ hr, hfold, Nat.lt_trans hlt hx, ?_, ?_⟩
        · intro r' hr'
          rcases List.mem_cons.mp hr' with rfl | hr'
          · exact Nat.le_of_lt hlt
          · exact hmin r' hr'
        · rw [List.find?_cons]
          have : decide (x.Metric ≤ r.Metric) = false := by
            simp only [decide_eq_false_iff_not]
            omega
          rw [this]
          exact hfind
    · have hp : pick s x = s := by
        unfold pick
        rw [if_neg hx]
      rw [hp]
      rcases ih s with ⟨hall, hfold⟩ | ⟨r, hr, hfold, hlt, hmin, hfind⟩
      · left
        refine ⟨?_, hfold⟩
        intro r' hr'
        rcases List.mem_cons.mp hr' with rfl | hr'
        · omega
        · exact hall r' hr'
      · right
        refine ⟨r, List.mem_cons_of_mem _ hr, hfold, hlt, ?_, ?_⟩
        · intro r' hr'
          rcases List.mem_cons.mp hr' with rfl | hr'
          · omega
          · exact hmin r' hr'
        · rw [List.find?_cons]
          have : decide (x.Metric ≤ r.Metric) = false := by
            simp only [decide_eq_false_iff_not]
            omega
          rw [this]
          exact hfind

/-- What the loop of `bindSocketRoute` selects when no default route outside the tunnel has
the metric `2 ^ 32 - 1`: nothing for an empty candidate list, and otherwise the first
candidate, in table order, of lowest metric. -/
theorem selectRoute_spec (ourLuid : Nat) (routes : List RouteRow)
    (hmax : ∀ r ∈ candidates ourLuid routes, r.Metric < 2 ^ 32 - 1) :
    (candidates ourLuid routes = [] ∧
      selectRoute ourLuid routes = { lowestMetric := 2 ^ 32 - 1, index := 0, luid := 0 }) ∨
    (∃ r ∈ candidates ourLuid routes,
      selectRoute ourLuid routes =
        { lowestMetric := r.Metric, index := r.InterfaceIndex, luid := r.InterfaceLUID } ∧
      (∀ r' ∈ candidates ourLuid routes, r.Metric ≤ r'.Metric) ∧
      (candidates ourLuid routes).find? (fun r' => decide (r'.Metric ≤ r.Metric)) = some r) := by
  unfold selectRoute
  rw [selectRoute_eq_foldl_pick]
  rcases foldl_pick_spec (candidates ourLuid routes)
    { lowestMetric := 2 ^ 32 - 1, index := 0, luid := 0 } with
    ⟨hall, hfold⟩ | ⟨r, hr, hfold, _, hmin, hfind⟩
  · left
    refine ⟨?_, hfold⟩
    cases hc : candidates ourLuid routes with
    | nil => rfl
    | cons x xs =>
      exfalso
      have h1 := hall x (by rw [hc]; exact List.mem_cons_self _ _)
      have h2 := hmax x (by rw [hc]; exact List.mem_cons_self _ _)
      simp only at h1
      omega
  · exact Or.inr ⟨r, hr, hfold, hmin, hfind⟩

/-- C6, the failing input: the table holds one default route outside the tunnel (LUID 5,
index 3) with metric 4294967295; the loop selects index 0 and LUID 0, and
`bindSocketRoute`, called with that interface as the last selected one, replaces it with
the unspecified interface. -/
theorem bindSocketRoute_ignores_max_metric_route :
    candidates 9 [⟨0, 5, 3, 4294967295⟩] = [⟨0, 5, 3, 4294967295⟩] ∧
    selectRoute 9 [⟨0, 5, 3, 4294967295⟩] = ⟨4294967295, 0, 0⟩ ∧
    bindSocketRoute maxMetricOS Family.AF_INET 9 5 = (none, 0, []) := by
  refine ⟨by decide, by decide, by decide⟩

/-! ## The default-route monitor: derivation and application of the MTU -/

theorem deriveMtu_of_no_ipv4 (os : OS) (st : MonitorState) (h4 : st.lastLuid4 = 0) :
    deriveMtu os st = .ok 0 ∨ ∃ err, deriveMtu os st = .error err := by
  unfold deriveMtu
  simp only [h4, ne_eq, not_true_eq_false, if_false]
  by_cases h6 : st.lastLuid6 = 0
  · left
    simp [h6]
  · simp only [h6, not_false_eq_true, if_true]
    cases hi : os.Interface st.lastLuid6 with
    | error err => exact Or.inr ⟨err, rfl⟩
    | ok m =>
      left
      simp

/-- C7, the failing input: with both preferred interfaces present at MTU 1500 and 1400 the
derived mtu is 1400, but with no preferred IPv4 interface and a preferred IPv6 interface of
MTU 1400 the derived mtu is 0, so `doIt` applies nothing; the same holds for every MTU `m`
of the IPv6 interface. -/
theorem deriveMtu_ipv6_only_is_zero :
    deriveMtu dualStackOS ⟨5, 7, 0⟩ = .ok 1400 ∧
    deriveMtu ipv6OnlyOS ⟨0, 7, 0⟩ = .ok 0 ∧
    doIt ipv6OnlyOS true 9 ⟨0, 0, 0⟩ = (none, ⟨0, 7, 0⟩, []) ∧
    (∀ (os : OS) (st : MonitorState) (m : Nat), st.lastLuid4 = 0 →
      os.Interface st.lastLuid6 = .ok m → deriveMtu os st = .ok 0) := by
  refine ⟨by rfl, by rfl, by rfl, ?_⟩
  intro os st m h4 h6
  rcases deriveMtu_of_no_ipv4 os st h4 with h | ⟨err, h⟩
  · exact h
  · exfalso
    unfold deriveMtu at h
    simp only [h4, ne_eq, not_true_eq_false, if_false] at h
    by_cases hz : st.lastLuid6 = 0
    · simp [hz] at h
    · simp [hz, h6] at h

theorem mtuMinus80_of_ge (mtu : Nat) (h1 : 80 ≤ mtu) (h2 : mtu < 2 ^ 32) :
    mtuMinus80 mtu = mtu - 80 := by
  unfold mtuMinus80
  omega

theorem mtuMinus80_of_lt (mtu : Nat) (h1 : mtu < 80) :
    mtuMinus80 mtu = mtu + 4294967216 := by
  unfold mtuMinus80
  omega

/-- The values `doIt` writes for a derived mtu of at least 80: `mtu - 80` capped by the MTU
of the tunnel device when it can be read, floored at 576 for IPv4; `mtu - 80` floored at
1280 for IPv6. -/
theorem nlmtu_of_ge_80 (os : OS) (mtu : Nat) (h1 : 80 ≤ mtu) (h2 : mtu < 2 ^ 32) :
    nlmtu6 mtu = max (mtu - 80) 1280 ∧
    (∀ c : Nat, c < 2 ^ 32 → os.tunMTU = .ok (c : Int) →
      nlmtu4 os mtu = max (min (mtu - 80) c) 576) ∧
    (∀ err, os.tunMTU = .error err → nlmtu4 os mtu = max (mtu - 80) 576) := by
  refine ⟨?_, ?_, ?_⟩
  · unfold nlmtu6
    rw [mtuMinus80_of_ge mtu h1 h2]
    simp only
    split_ifs <;> omega
  · intro c hc htun
    unfold nlmtu4
    rw [mtuMinus80_of_ge mtu h1 h2, htun]
    simp only
    have hmod : ((c : Int) % 2 ^ 32).toNat = c := by omega
    rw [hmod]
    split_ifs <;> omega
  · intro err htun
    unfold nlmtu4
    rw [mtuMinus80_of_ge mtu h1 h2, htun]
    simp only
    split_ifs <;> omega

theorem nlmtu4_ge_576 (os : OS) (mtu : Nat) : 576 ≤ nlmtu4 os mtu := by
  unfold nlmtu4
  simp only
  split_ifs <;> omega

/-- C8, the failing input: for the derived mtu 50 the subtraction `mtu - 80` wraps to
4294967266; with a tunnel device of MTU 1500 the IPv4 record gets 1500 (not 576), with an
unreadable tunnel MTU it gets 4294967266, and the IPv6 record gets 4294967266 (not 1280).
For every derived mtu below 80 the IPv6 record gets `mtu + 4294967216`. -/
theorem doIt_mtu_below_80_wraps :
    nlmtu4 exampleOS 50 = 1500 ∧
    nlmtu4 { exampleOS with tunMTU := .error (Error.errno 5) } 50 = 4294967266 ∧
    nlmtu6 50 = 4294967266 ∧
    doIt (ipv4OS 50) true 9 ⟨0, 0, 0⟩ =
      (none, ⟨5, 0, 50⟩,
        [Event.setIPInterface Family.AF_INET ⟨1500, true, 10, 1, 1⟩,
         Event.forceMTU 1500,
         Event.setIPInterface Family.AF_INET6 ⟨4294967266, true, 10, 1, 1⟩]) ∧
    (∀ mtu : Nat, mtu < 80 → nlmtu6 mtu = mtu + 4294967216) := by
  refine ⟨by rfl, by rfl, by rfl, by rfl, ?_⟩
  intro mtu h
  unfold nlmtu6
  rw [mtuMinus80_of_lt mtu h]
  simp only
  split_ifs <;> omega

/-! ## The default-route monitor: a notification that changes no selected interface -/

theorem bindSocketRoute_same (os : OS) (family : Family) (ourLuid lastLuid : Nat)
    (table : List RouteRow) (ht : os.GetIPForwardTable2 family = .ok table)
    (hs : (selectRoute ourLuid table).luid = lastLuid) :
    bindSocketRoute os family ourLuid lastLuid = (none, lastLuid, []) := by
  unfold bindSocketRoute
  rw [ht]
  simp only [hs, if_true]

theorem applyMtu_noop (os : OS) (st : MonitorState) (mtu : Nat)
    (h : mtu = 0 ∨ mtu = st.lastMtu) : applyMtu os st mtu = (none, st, []) := by
  unfold applyMtu
  rw [if_neg]
  rintro ⟨hpos, h0 | hne⟩
  · rcases h with h | h
    · omega
    · omega
  · rcases h with h | h
    · omega
    · exact hne h.symm

theorem applyMtu_frame (os : OS) (st : MonitorState) (mtu : Nat) :
    (applyMtu os st mtu).2.1.lastLuid4 = st.lastLuid4 ∧
    (applyMtu os st mtu).2.1.lastLuid6 = st.lastLuid6 ∧
    ∀ e ∈ (applyMtu os st mtu).2.2, ∀ family index,
      e ≠ Event.bindSocketToInterface family index := by
  unfold applyMtu
  split_ifs with hc
  · cases h4 : os.IPInterface Family.AF_INET with
    | error err => simp
    | ok iface =>
      simp only
      cases hs4 : os.Set Family.AF_INET { iface with NLMTU := nlmtu4 os mtu } with
      | error err => simp
      | ok u =>
        simp only
        cases h6 : os.IPInterface Family.AF_INET6 with
        | error err =>
          simp only
          split_ifs <;> simp
        | ok iface6 =>
          simp only
          cases hs6 : os.Set Family.AF_INET6 { iface6 with NLMTU := nlmtu6 mtu } <;> simp
  · simp

theorem applyMtu_of_changed (os : OS) (st : MonitorState) (mtu : Nat) (hpos : mtu ≠ 0)
    (hne : mtu ≠ st.lastMtu) :
    (∀ err, os.IPInterface Family.AF_INET = .error err →
      applyMtu os st mtu = (some err, st, [])) ∧
    (∀ iface, os.IPInterface Family.AF_INET = .ok iface →
      ∃ rest, (applyMtu os st mtu).2.2 =
        Event.setIPInterface Family.AF_INET { iface with NLMTU := nlmtu4 os mtu } :: rest) := by
  have hc : mtu > 0 ∧ (st.lastMtu = 0 ∨ st.lastMtu ≠ mtu) :=
    ⟨Nat.pos_of_ne_zero hpos, Or.inr (fun h => hne h.symm)⟩
  unfold applyMtu
  rw [if_pos hc]
  refine ⟨?_, ?_⟩
  · intro err h4
    rw [h4]
  · intro iface h4
    rw [h4]
    simp only
    cases hs4 : os.Set Family.AF_INET { iface with NLMTU := nlmtu4 os mtu } with
    | error err => exact ⟨[], rfl⟩
    | ok u =>
      simp only
      cases h6 : os.IPInterface Family.AF_INET6 with
      | error err =>
        simp only
        split_ifs <;> exact ⟨_, rfl⟩
      | ok iface6 =>
        simp only
        cases hs6 : os.Set Family.AF_INET6 { iface6 with NLMTU := nlmtu6 mtu } <;>
          exact ⟨_, rfl⟩

theorem applyMtu_events_nil_iff (os : OS) (st : MonitorState) (mtu : Nat) :
    (applyMtu os st mtu).2.2 = [] ↔
      (mtu = 0 ∨ mtu = st.lastMtu ∨ ∃ err, os.IPInterface Family.AF_INET = .error err) := by
  constructor
  · intro hnil
    by_cases h0 : mtu = 0
    · exact Or.inl h0
    · by_cases hl : mtu = st.lastMtu
      · exact Or.inr (Or.inl hl)
      · right
        right
        cases h4 : os.IPInterface Family.AF_INET with
        | error err => exact ⟨err, rfl⟩
        | ok iface =>
          obtain ⟨rest, hrest⟩ := (applyMtu_of_changed os st mtu h0 hl).2 iface h4
          rw [hrest] at hnil
          cases hnil
  · rintro (h | h | ⟨err, h⟩)
    · rw [applyMtu_noop os st mtu (Or.inl h)]
    · rw [applyMtu_noop os st mtu (Or.inr h)]
    · by_cases h0 : mtu = 0
      · rw [applyMtu_noop os st mtu (Or.inl h0)]
      · by_cases hl : mtu = st.lastMtu
        · rw [applyMtu_noop os st mtu (Or.inr hl)]
        · rw [(applyMtu_of_changed os st mtu h0 hl).1 err h]

theorem applyMtu_eq_noop_iff (os : OS) (st : MonitorState) (mtu : Nat) :
    applyMtu os st mtu = (none, st, []) ↔ (mtu = 0 ∨ mtu = st.lastMtu) := by
  constructor
  · intro heq
    by_cases h0 : mtu = 0
    · exact Or.inl h0
    · by_cases hl : mtu = st.lastMtu
      · exact Or.inr hl
      · exfalso
        cases h4 : os.IPInterface Family.AF_INET with
        | error err =>
          rw [(applyMtu_of_changed os st mtu h0 hl).1 err h4] at heq
          cases heq
        | ok iface =>
          obtain ⟨rest, hrest⟩ := (applyMtu_of_changed os st mtu h0 hl).2 iface h4
          rw [heq] at hrest
          cases hrest
  · exact applyMtu_noop os st mtu

theorem doIt_of_same_interfaces (os : OS) (autoMTU : Bool) (ourLuid : Nat) (st : MonitorState)
    (t4 t6 : List RouteRow)
    (h4 : os.GetIPForwardTable2 Family.AF_INET = .ok t4)
    (h6 : os.GetIPForwardTable2 Family.AF_INET6 = .ok t6)
    (hs4 : (selectRoute ourLuid t4).luid = st.lastLuid4)
    (hs6 : (selectRoute ourLuid t6).luid = st.lastLuid6) :
    doIt os autoMTU ourLuid st =
      if autoMTU = false then (none, st, [])
      else
        match deriveMtu os st with
        | .error err => (some err, st, [])
        | .ok mtu => applyMtu os st mtu := by
  unfold doIt
  rw [bindSocketRoute_same os Family.AF_INET ourLuid st.lastLuid4 t4 h4 hs4]
  simp only
  rw [bindSocketRoute_same os Family.AF_INET6 ourLuid st.lastLuid6 t6 h6 hs6]
  rcases st with ⟨l4, l6, lm⟩
  cases autoMTU
  · simp
  · simp only [Bool.not_true, Bool.false_eq_true, if_false, List.append_nil, List.nil_append]
    cases hd : deriveMtu os ⟨l4, l6, lm⟩ with
    | error err => rfl
    | ok mtu => rfl

/-- C9, the counterexample: the IPv4 default route is still on the interface selected last
(LUID 5) and there is still no IPv6 one, but the interface now reports MTU 1400 where 1500
was applied last: `doIt` writes both interface records, changes the MTU of the tunnel
device and stores the new mtu. -/
theorem doIt_same_interface_new_mtu :
    (selectRoute 9 [⟨0, 5, 3, 25⟩]).luid = 5 ∧
    (selectRoute 9 []).luid = 0 ∧
    doIt (ipv4OS 1400) true 9 ⟨5, 0, 1500⟩ =
      (none, ⟨5, 0, 1400⟩,
        [Event.setIPInterface Family.AF_INET ⟨1320, true, 10, 1, 1⟩,
         Event.forceMTU 1320,
         Event.setIPInterface Family.AF_INET6 ⟨1320, true, 10, 1, 1⟩]) := by
  refine ⟨by decide, by decide, by rfl⟩

/-- C9, amended. When the interface selected in each family is the one selected last,
`doIt` binds no socket and keeps both last selected interfaces; with `autoMTU` off it does
nothing at all; with `autoMTU` on it derives the mtu again from the MTUs the selected
interfaces report now and applies it as after a change. It returns without error, with no
call made and the state unchanged, exactly when the derived mtu is 0 or equal to the last
applied one; it makes no call with an effect (no interface record written, tunnel device
MTU untouched) exactly when the derived mtu is 0, or equal to the last applied one, or the
IPv4 interface record cannot be read, the last case ending in that error; for a derived
mtu that is positive and differs from the last applied one, with the IPv4 record read, the
first call is the write of that record with the new MTU. -/
theorem doIt_same_interfaces (os : OS) (autoMTU : Bool) (ourLuid : Nat) (st : MonitorState)
    (t4 t6 : List RouteRow)
    (h4 : os.GetIPForwardTable2 Family.AF_INET = .ok t4)
    (h6 : os.GetIPForwardTable2 Family.AF_INET6 = .ok t6)
    (hs4 : (selectRoute ourLuid t4).luid = st.lastLuid4)
    (hs6 : (selectRoute ourLuid t6).luid = st.lastLuid6) :
    (∀ e ∈ (doIt os autoMTU ourLuid st).2.2, ∀ family index,
      e ≠ Event.bindSocketToInterface family index) ∧
    (doIt os autoMTU ourLuid st).2.1.lastLuid4 = st.lastLuid4 ∧
    (doIt os autoMTU ourLuid st).2.1.lastLuid6 = st.lastLuid6 ∧
    (autoMTU = false → doIt os autoMTU ourLuid st = (none, st, [])) ∧
    (∀ err, autoMTU = true → deriveMtu os st = .error err →
      doIt os autoMTU ourLuid st = (some err, st, [])) ∧
    (∀ mtu, autoMTU = true → deriveMtu os st = .ok mtu →
      doIt os autoMTU ourLuid st = applyMtu os st mtu) ∧
    (∀ mtu, deriveMtu os st = .ok mtu → (mtu = 0 ∨ mtu = st.lastMtu) →
      doIt os autoMTU ourLuid st = (none, st, [])) ∧
    (∀ mtu, autoMTU = true → deriveMtu os st = .ok mtu →
      (doIt os autoMTU ourLuid st = (none, st, []) ↔ (mtu = 0 ∨ mtu = st.lastMtu))) ∧
    (∀ mtu, autoMTU = true → deriveMtu os st = .ok mtu →
      ((doIt os autoMTU ourLuid st).2.2 = [] ↔
        (mtu = 0 ∨ mtu = st.lastMtu ∨
          ∃ err, os.IPInterface Family.AF_INET = .error err))) ∧
    (∀ mtu, autoMTU = true → deriveMtu os st = .ok mtu → mtu ≠ 0 → mtu ≠ st.lastMtu →
      (∀ err, os.IPInterface Family.AF_INET = .error err →
        doIt os autoMTU ourLuid st = (some err, st, [])) ∧
      (∀ iface, os.IPInterface Family.AF_INET = .ok iface →
        ∃ rest, (doIt os autoMTU ourLuid st).2.2 =
          Event.setIPInterface Family.AF_INET { iface with NLMTU := nlmtu4 os mtu } ::
            rest)) := by
  have hd := doIt_of_same_interfaces os autoMTU ourLuid st t4 t6 h4 h6 hs4 hs6
  have hframe := applyMtu_frame os st
  cases autoMTU with
  | false =>
    simp only [if_true] at hd
    rw [hd]
    simp
  | true =>
    simp only [Bool.true_eq_false, if_false] at hd
    cases hm : deriveMtu os st with
    | error err =>
      rw [hm] at hd
      rw [hd]
      simp
    | ok mtu =>
      rw [hm] at hd
      simp only at hd
      rw [hd]
      refine ⟨(hframe mtu).2.2, (hframe mtu).1, (hframe mtu).2.1, by simp, by simp,
        ?_, ?_, ?_, ?_, ?_⟩
      · intro mtu' _ hmtu'
        cases hmtu'
        rfl
      · intro mtu' hmtu' hcase
        cases hmtu'
        exact applyMtu_noop os st mtu hcase
      · intro mtu' _ hmtu'
        cases hmtu'
        exact applyMtu_eq_noop_iff os st mtu
      · intro mtu' _ hmtu'
        cases hmtu'
        exact applyMtu_events_nil_iff os st mtu
      · intro mtu' _ hmtu' h0 hl
        cases hmtu'
        exact applyMtu_of_changed os st mtu h0 hl

/-- Witness for C9 as amended: the interface selected last (LUID 5) is selected again and
reports the MTU 1500 that was applied last. -/
theorem doIt_same_interfaces_witness :
    doIt (ipv4OS 1500) true 9 ⟨5, 0, 1500⟩ = (none, ⟨5, 0, 1500⟩, []) :=
  (doIt_same_interfaces (ipv4OS 1500) true 9 ⟨5, 0, 1500⟩ [⟨0, 5, 3, 25⟩] [] rfl rfl
    (by decide) (by decide)).2.2.2.2.2.2.1 1500 (by rfl) (Or.inr rfl)

/-! ## Bring-up: which errors end it and which are aggregated -/

theorem configureV6_ok (os : OS) (acc : RouteAcc) (errAcc : Option Error) (events : List Event)
    (ipif6 : IPInterfaceRow) (h6 : os.IPInterface Family.AF_INET6 = .ok ipif6) :
    configureV6 os 0 acc.foundDefault6 errAcc events =
      (accumulate errAcc (os.Set Family.AF_INET6 (row6 acc ipif6)),
        events ++ [Event.setIPInterface Family.AF_INET6 (row6 acc ipif6)]) := by
  unfold configureV6 row6
  rw [h6]
  simp only [Nat.lt_irrefl, if_false]

theorem configureV6_error (os : OS) (acc : RouteAcc) (errAcc : Option Error)
    (events : List Event) (err : Error) (h6 : os.IPInterface Family.AF_INET6 = .error err) :
    configureV6 os 0 acc.foundDefault6 errAcc events =
      if isMissingIPv6Err err = true then (errAcc, events) else (some err, events) := by
  unfold configureV6
  rw [h6]
  simp only
  cases isMissingIPv6Err err <;> simp

theorem configureV4_ok (os : OS) (acc : RouteAcc) (errAcc : Option Error) (events : List Event)
    (ipif4 : IPInterfaceRow) (h4 : os.IPInterface Family.AF_INET = .ok ipif4) :
    configureV4 os 0 acc errAcc events =
      configureV6 os 0 acc.foundDefault6 (accumulate errAcc (os.Set Family.AF_INET (row4 acc ipif4)))
        (events ++ [Event.setIPInterface Family.AF_INET (row4 acc ipif4)]) := by
  unfold configureV4 row4
  rw [h4]
  simp only [Nat.lt_irrefl, if_false]

theorem configureV4_error (os : OS) (acc : RouteAcc) (errAcc : Option Error)
    (events : List Event) (err : Error) (h4 : os.IPInterface Family.AF_INET = .error err) :
    configureV4 os 0 acc errAcc events = (some err, events) := by
  unfold configureV4
  rw [h4]

theorem configureInterfaceWith_sync (syncA : List IPNet → Except Error Unit)
    (syncR : List RouteData → Except Error Unit) (os : OS) (cfg : Config) (acc : RouteAcc)
    (hg : os.interfaceFromGUID = .ok ()) (hb : buildRoutes cfg = .ok acc) :
    configureInterfaceWith syncA syncR os cfg =
      match syncA (localAddresses cfg) with
      | .error err => (some err, [Event.syncAddresses (localAddresses cfg)])
      | .ok _ =>
        configureV4 os 0 acc
          (accumulate none (syncR (deduplicate (sortSlice routeLess acc.routes))))
          [Event.syncAddresses (localAddresses cfg),
           Event.syncRoutes (deduplicate (sortSlice routeLess acc.routes))] := by
  unfold configureInterfaceWith
  rw [hg]
  simp only [hb]

theorem accumulate_eq_firstError (r1 r2 r3 : Except Error Unit) :
    accumulate (accumulate (accumulate none r1) r2) r3 = firstError [r1, r2, r3] ∧
    accumulate (accumulate none r1) r2 = firstError [r1, r2] := by
  cases r1 <;> cases r2 <;> cases r3 <;> exact ⟨rfl, rfl⟩

theorem firstError_eq_none_iff (l : List (Except Error Unit)) :
    firstError l = none ↔ ∀ r ∈ l, r = .ok () := by
  induction l with
  | nil => simp [firstError]
  | cons r rest ih =>
    cases r with
    | error err => simp [firstError]
    | ok u => simp [firstError, ih]

/-- C10, the counterexample: on an operating system where every call succeeds, bring-up with
the synchronizers of the source returns the error of `syncAddresses` after that one call;
`syncRoutes` and the two interface records are not attempted. With any synchronizers, a
failing address sync ends bring-up in the same way. -/
theorem configureInterface_stops_at_syncAddresses :
    configureInterface exampleOS ownAddressConfig =
      (some Error.notImplemented,
        [Event.syncAddresses [⟨[10, 0, 0, 5], [255, 255, 255, 0]⟩,
          ⟨[10, 0, 0, 9], [255, 255, 255, 0]⟩]]) ∧
    configureInterfaceWith (fun _ => .error (Error.errno 87)) (fun _ => .ok ()) exampleOS
        ownAddressConfig =
      (some (Error.errno 87),
        [Event.syncAddresses [⟨[10, 0, 0, 5], [255, 255, 255, 0]⟩,
          ⟨[10, 0, 0, 9], [255, 255, 255, 0]⟩]]) :=
  ⟨by rfl, by rfl⟩

/-- C10, amended. For a configuration that passes route building, with the interface found:
a failing address sync ends bring-up with its error after that one call, and so does a
failure to read the IPv4 interface record, or the IPv6 one for another reason than IPv6
missing, after the calls made so far. Otherwise route sync, setting the IPv4 record and
setting the IPv6 record (the last one skipped when IPv6 is missing) are all attempted
whatever the earlier ones returned, and the error returned is that of the first of them
that failed, none when all succeeded. -/
theorem configureInterfaceWith_aggregates (syncA : List IPNet → Except Error Unit)
    (syncR : List RouteData → Except Error Unit) (os : OS) (cfg : Config) (acc : RouteAcc)
    (hg : os.interfaceFromGUID = .ok ()) (hb : buildRoutes cfg = .ok acc) :
    (∀ err, syncA (localAddresses cfg) = .error err →
      configureInterfaceWith syncA syncR os cfg =
        (some err, [Event.syncAddresses (localAddresses cfg)])) ∧
    (syncA (localAddresses cfg) = .ok () →
      (∀ err, os.IPInterface Family.AF_INET = .error err →
        configureInterfaceWith syncA syncR os cfg =
          (some err, [Event.syncAddresses (localAddresses cfg),
            Event.syncRoutes (deduplicate (sortSlice routeLess acc.routes))])) ∧
      (∀ ipif4, os.IPInterface Family.AF_INET = .ok ipif4 →
        (∀ ipif6, os.IPInterface Family.AF_INET6 = .ok ipif6 →
          configureInterfaceWith syncA syncR os cfg =
            (firstError [syncR (deduplicate (sortSlice routeLess acc.routes)),
                os.Set Family.AF_INET (row4 acc ipif4),
                os.Set Family.AF_INET6 (row6 acc ipif6)],
              [Event.syncAddresses (localAddresses cfg),
               Event.syncRoutes (deduplicate (sortSlice routeLess acc.routes)),
               Event.setIPInterface Family.AF_INET (row4 acc ipif4),
               Event.setIPInterface Family.AF_INET6 (row6 acc ipif6)])) ∧
        (∀ err, os.IPInterface Family.AF_INET6 = .error err → isMissingIPv6Err err = true →
          configureInterfaceWith syncA syncR os cfg =
            (firstError [syncR (deduplicate (sortSlice routeLess acc.routes)),
                os.Set Family.AF_INET (row4 acc ipif4)],
              [Event.syncAddresses (localAddresses cfg),
               Event.syncRoutes (deduplicate (sortSlice routeLess acc.routes)),
               Event.setIPInterface Family.AF_INET (row4 acc ipif4)])) ∧
        (∀ err, os.IPInterface Family.AF_INET6 = .error err → isMissingIPv6Err err = false →
          configureInterfaceWith syncA syncR os cfg =
            (some err,
              [Event.syncAddresses (localAddresses cfg),
               Event.syncRoutes (deduplicate (sortSlice routeLess acc.routes)),
               Event.setIPInterface Family.AF_INET (row4 acc ipif4)])))) ∧
    (∀ l : List (Except Error Unit), firstError l = none ↔ ∀ r ∈ l, r = .ok ()) := by
  have hsync := configureInterfaceWith_sync syncA syncR os cfg acc hg hb
  refine ⟨?_, ?_, firstError_eq_none_iff⟩
  · intro err ha
    rw [hsync, ha]
  · intro ha
    rw [ha] at hsync
    simp only at hsync
    refine ⟨?_, ?_⟩
    · intro err h4
      rw [hsync, configureV4_error _ _ _ _ err h4]
    · intro ipif4 h4
      rw [configureV4_ok _ _ _ _ ipif4 h4] at hsync
      refine ⟨?_, ?_, ?_⟩
      · intro ipif6 h6
        rw [hsync, configureV6_ok _ _ _ _ ipif6 h6, (accumulate_eq_firstError _ _ _).1]
        rfl
      · intro err h6 hmiss
        rw [hsync, configureV6_error _ _ _ _ err h6, if_pos hmiss,
          (accumulate_eq_firstError _ _ (.ok ())).2]
        rfl
      · intro err h6 hmiss
        rw [hsync, configureV6_error _ _ _ _ err h6, if_neg (by simp [hmiss])]
        rfl

/-- Witness for C10 as amended: address sync and route sync succeed, setting the IPv4 record
fails with error code 87 and setting the IPv6 record with error code 5; all four calls are
made and the error returned is the first one, 87. -/
theorem configureInterfaceWith_aggregates_witness :
    configureInterfaceWith (fun _ => .ok ()) (fun _ => .ok ()) setFailsOS ownAddressConfig =
      (some (Error.errno 87),
        [Event.syncAddresses [⟨[10, 0, 0, 5], [255, 255, 255, 0]⟩,
          ⟨[10, 0, 0, 9], [255, 255, 255, 0]⟩],
         Event.syncRoutes [⟨⟨[0, 0, 0, 0], [0, 0, 0, 0]⟩, [10, 0, 0, 5], 0⟩,
          ⟨⟨[10, 0, 0, 0], [255, 255, 255, 0]⟩, [10, 0, 0, 5], 0⟩],
         Event.setIPInterface Family.AF_INET ⟨1500, false, 0, 1, 1⟩,
         Event.setIPInterface Family.AF_INET6 ⟨1500, true, 10, 0, 0⟩]) :=
  ((configureInterfaceWith_aggregates (fun _ => .ok ()) (fun _ => .ok ()) setFailsOS
    ownAddressConfig
    ⟨[⟨⟨[10, 0, 0, 0], [255, 255, 255, 0]⟩, [10, 0, 0, 5], 0⟩,
      ⟨⟨[0, 0, 0, 0], [0, 0, 0, 0]⟩, [10, 0, 0, 5], 0⟩], true, false⟩ rfl rfl).2.1 rfl).2
    ⟨1500, true, 10, 1, 1⟩ rfl |>.1 ⟨1500, true, 10, 1, 1⟩ rfl

end Router
